import Mathlib

/-!
Shallow embedding of the response-normalization layer of the
alpha-vantage-go-wrapper repository (package models): the JSON decoders for
time-series, quote, technical-indicator and crypto payloads, together with
their shared metadata / number / timestamp parsing helpers.

Modelling conventions:
* A Go decoder call is a function from the generic decoded JSON value
  (the map produced by encoding/json) to an Outcome.  Outcome.err models a
  returned error value; Outcome.panic models a runtime panic raised by an
  unchecked type assertion.  The byte-level JSON parser itself is the
  encoding/json collaborator and is not re-implemented: decoders consume a
  Json tree, and a top-level value that is not an object yields the error
  encoding/json would return.
* Go float64 values are modelled as Rat: no claim in scope depends on
  binary rounding, and every number appearing in the claims is exactly
  representable.  strconv.ParseFloat / the json ,string tag are modelled on
  the plain decimal forms (optional sign, digits, optional fraction) that
  both grammars share.
* time.Time is modelled as a Nat: the injective order-preserving encoding
  of the parsed (year, month, day, hour, minute, second) tuple.  The three
  layout strings used by the source are modelled by three strict
  fixed-width parsers with the range checks time.Parse performs.
* A Go map[string]T is modelled as an association list in one iteration
  order; map iteration order is unspecified in Go, so theorems that depend
  on the key set being duplicate-free state that as a hypothesis.
* Go struct receivers are passed explicitly: a decoder takes the receiver
  value before the call and returns the updated value, which makes the
  append-versus-rebuild behaviour of the different decoders visible.
-/

/-- Result of a Go call: a normal value, a returned error, or a runtime
panic (from an unchecked type assertion). -/
inductive Outcome (α : Type) where
  | ok (a : α)
  | err (msg : String)
  | panic (msg : String)
deriving Repr, DecidableEq

def Outcome.bind {α β : Type} : Outcome α → (α → Outcome β) → Outcome β
  | .ok a, f => f a
  | .err m, _ => .err m
  | .panic m, _ => .panic m

/-- Generic JSON value, the image of Go interface values produced by
encoding/json (numbers arrive as float64, here Rat). -/
inductive Json where
  | null
  | bool (b : Bool)
  | num (q : Rat)
  | str (s : String)
  | arr (xs : List Json)
  | obj (fields : List (String × Json))

/-- A decoded JSON object: association list in map iteration order. -/
abbrev JObj := List (String × Json)

/-- Go map lookup on the modelled object. -/
def jlookup (o : JObj) (k : String) : Option Json :=
  match o with
  | [] => none
  | (k2, v) :: rest => if k2 = k then some v else jlookup rest k

def Json.isStr : Json → Bool
  | .str _ => true
  | _ => false

/-- Model of strings.HasPrefix, the prefix test used by the key scans:
a char-by-char comparison, kept elementary so that concrete decodes
evaluate inside the kernel. -/
def listStartsWith : List Char → List Char → Bool
  | _, [] => true
  | [], _ :: _ => false
  | c :: cs, p :: ps => c == p && listStartsWith cs ps

def strStartsWith (s pre2 : String) : Bool := listStartsWith s.toList pre2.toList

/-- Value of an ASCII digit character, if it is one. -/
def digitVal (c : Char) : Option Nat :=
  if 48 ≤ c.toNat ∧ c.toNat ≤ 57 then some (c.toNat - 48) else none

def allDigits (l : List Char) : Bool :=
  l.all (fun c => decide (48 ≤ c.toNat ∧ c.toNat ≤ 57))

def digitsToNat (l : List Char) : Nat :=
  l.foldl (fun a c => a * 10 + (c.toNat - 48)) 0

/-- Model of strconv.ParseFloat (and of the numeric-string grammar behind
the json ,string tag) on plain decimal numerals: optional sign, digits,
optional single fraction point, at least one digit in total. -/
def parseFloatQ (s : String) : Option Rat :=
  let core : List Char → Option Rat := fun l =>
    let intPart := l.takeWhile (fun c => c ≠ '.')
    let rest := l.dropWhile (fun c => c ≠ '.')
    match rest with
    | [] =>
      if intPart ≠ [] ∧ allDigits intPart then some (mkRat (digitsToNat intPart) 1)
      else none
    | _ :: frac =>
      if (intPart ≠ [] ∨ frac ≠ []) ∧ allDigits intPart ∧ allDigits frac then
        some (mkRat (digitsToNat (intPart ++ frac)) (10 ^ frac.length))
      else none
  match s.toList with
  | '-' :: rest => (core rest).map (fun q => -q)
  | '+' :: rest => core rest
  | l => core l

/-- Model of strconv.ParseInt base 10 (and of an integer ,string field):
optional sign then decimal digits. -/
def parseIntGo (s : String) : Option Int :=
  match s.toList with
  | '-' :: rest =>
    if rest ≠ [] ∧ allDigits rest then some (-(digitsToNat rest : Int)) else none
  | '+' :: rest =>
    if rest ≠ [] ∧ allDigits rest then some ((digitsToNat rest : Int)) else none
  | l => if l ≠ [] ∧ allDigits l then some ((digitsToNat l : Int)) else none

/-- Injective encoding of a parsed calendar timestamp; the model of a Go
time.Time value produced by time.Parse. -/
def encodeTS (y mo d h mi s : Nat) : Nat :=
  ((((y * 13 + mo) * 32 + d) * 24 + h) * 60 + mi) * 60 + s

/-- Model of time.Parse with layout 2006-01-02: exactly ten characters,
zero-padded digit fields, hyphen separators, month and day range checks. -/
def parseDateChars : List Char → Option Nat
  | [ca, cb, cc, cd, ce, cf, cg, ch, ci, cj] =>
    if ce = '-' ∧ ch = '-' then
      (digitVal ca).bind fun va =>
      (digitVal cb).bind fun vb =>
      (digitVal cc).bind fun vc =>
      (digitVal cd).bind fun vd =>
      (digitVal cf).bind fun vf =>
      (digitVal cg).bind fun vg =>
      (digitVal ci).bind fun vi =>
      (digitVal cj).bind fun vj =>
      if 1 ≤ vf * 10 + vg ∧ vf * 10 + vg ≤ 12 ∧ 1 ≤ vi * 10 + vj ∧ vi * 10 + vj ≤ 31 then
        some (encodeTS (((va * 10 + vb) * 10 + vc) * 10 + vd) (vf * 10 + vg) (vi * 10 + vj) 0 0 0)
      else none
    else none
  | _ => none

def parseDate (s : String) : Option Nat := parseDateChars s.toList

/-- Time-of-day tail of the date-time layouts: one space, two hour digits,
a colon, two minute digits, then optionally a colon and two second digits. -/
def parseTimeOfDayChars : List Char → Option (Nat × Nat × Nat)
  | [ck, cl, cm, cn, co, cp, cq, cr, cs] =>
    if ck = ' ' ∧ cn = ':' ∧ cq = ':' then
      (digitVal cl).bind fun vl =>
      (digitVal cm).bind fun vm =>
      (digitVal co).bind fun vo =>
      (digitVal cp).bind fun vp =>
      (digitVal cr).bind fun vr =>
      (digitVal cs).bind fun vs =>
      if vl * 10 + vm ≤ 23 ∧ vo * 10 + vp ≤ 59 ∧ vr * 10 + vs ≤ 59 then
        some (vl * 10 + vm, vo * 10 + vp, vr * 10 + vs)
      else none
    else none
  | _ => none

def parseHourMinChars : List Char → Option (Nat × Nat)
  | [ck, cl, cm, cn, co, cp] =>
    if ck = ' ' ∧ cn = ':' then
      (digitVal cl).bind fun vl =>
      (digitVal cm).bind fun vm =>
      (digitVal co).bind fun vo =>
      (digitVal cp).bind fun vp =>
      if vl * 10 + vm ≤ 23 ∧ vo * 10 + vp ≤ 59 then
        some (vl * 10 + vm, vo * 10 + vp)
      else none
    else none
  | _ => none

/-- Model of time.Parse with layout 2006-01-02 15:04:05 (intraday keys):
the ten-character date part followed by the nine-character time part.
Adding hours, minutes and seconds onto the date encoding agrees with
encodeTS applied to all six components. -/
def parseDateTimeChars (l : List Char) : Option Nat :=
  (parseDateChars (l.take 10)).bind fun d =>
  (parseTimeOfDayChars (l.drop 10)).bind fun hms =>
  some (d + (hms.1 * 60 + hms.2.1) * 60 + hms.2.2)

def parseDateTime (s : String) : Option Nat := parseDateTimeChars s.toList

/-- Model of time.Parse with layout 2006-01-02 15:04 (indicator keys:
minute resolution, no seconds field). -/
def parseDateTimeMinChars (l : List Char) : Option Nat :=
  (parseDateChars (l.take 10)).bind fun d =>
  (parseHourMinChars (l.drop 10)).bind fun hm =>
  some (d + (hm.1 * 60 + hm.2) * 60)

def parseDateTimeMin (s : String) : Option Nat := parseDateTimeMinChars s.toList

/-- Stable insertion of an element after every element whose key does not
exceed its own key. -/
def insertByTs {α : Type} (key : α → Nat) (x : α) : List α → List α
  | [] => [x]
  | y :: ys => if key y ≤ key x then y :: insertByTs key x ys else x :: y :: ys

def sortGo {α : Type} (key : α → Nat) : List α → List α → List α
  | acc, [] => acc
  | acc, x :: xs => sortGo key (insertByTs key x acc) xs

/-- Model of the trailing ascending-by-timestamp sort of every decoder:
a stable sort keyed on the encoded timestamp.  sort.SliceStable is exactly
this; sort.Slice (the daily/weekly/monthly family) agrees with it whenever
the timestamps are pairwise distinct, which the relevant theorems establish
or hypothesise. -/
def sortByTs {α : Type} (key : α → Nat) (l : List α) : List α := sortGo key [] l

/-- TimeSeriesMetaData (part_000 lines 145-155), with Go zero values. -/
structure TimeSeriesMetaData where
  Information : String := ""
  Symbol : String := ""
  LastRefreshed : String := ""
  Interval : String := ""
  OutputSize : String := ""
  TimeZone : String := ""
  TimePeriod : Rat := 0
  SeriesType : String := ""
  VolumeFactor : String := ""
deriving Repr, DecidableEq

/-- OHLCV (part_000 lines 167-175): timestamp plus five ,string fields. -/
structure OHLCV where
  Timestamp : Nat := 0
  Open : Rat := 0
  High : Rat := 0
  Low : Rat := 0
  Close : Rat := 0
  Volume : Int := 0
deriving Repr, DecidableEq

structure TimeSeriesIntraday where
  MetaData : TimeSeriesMetaData := {}
  TimeSeries : List OHLCV := []
deriving Repr, DecidableEq

structure TimeSeriesDaily where
  MetaData : TimeSeriesMetaData := {}
  TimeSeries : List OHLCV := []
deriving Repr, DecidableEq

/-- Quote (part_000 lines 227-238). -/
structure Quote where
  Symbol : String := ""
  Open : Rat := 0
  High : Rat := 0
  Low : Rat := 0
  Price : Rat := 0
  Volume : Int := 0
  LatestTradingDay : Nat := 0
  PreviousClose : Rat := 0
  Change : Rat := 0
  ChangePercent : String := ""
deriving Repr, DecidableEq

/-- IndicatorValue (part_001 lines 38-41): the Values map is modelled as
an association list in insertion order. -/
structure IndicatorValue where
  Timestamp : Nat := 0
  Values : List (String × Rat) := []
deriving Repr, DecidableEq

structure IndicatorResponse where
  MetaData : TimeSeriesMetaData := {}
  IndicatorValues : List IndicatorValue := []
deriving Repr, DecidableEq

/-- CryptoMetaData (crypto.go lines 65-73). -/
structure CryptoMetaData where
  Information : String := ""
  DigitalCurrencyCode : String := ""
  DigitalCurrencyName : String := ""
  MarketCode : String := ""
  MarketName : String := ""
  LastRefreshed : String := ""
  TimeZone : String := ""
deriving Repr, DecidableEq

/-- CryptoTimeSeriesData (crypto.go lines 75-83): all numerics float64. -/
structure CryptoTimeSeriesData where
  Timestamp : Nat := 0
  Open : Rat := 0
  High : Rat := 0
  Low : Rat := 0
  Close : Rat := 0
  Volume : Rat := 0
  MarketCap : Rat := 0
deriving Repr, DecidableEq

structure CryptoSeriesResponse where
  MetaData : CryptoMetaData := {}
  TimeSeries : List CryptoTimeSeriesData := []
  IntervalLabel : String := ""
deriving Repr, DecidableEq

/-- Tag-driven decode of a string struct field by encoding/json: an absent
or null key keeps the receiver value, a JSON string sets it, any other
value is an unmarshal type error. -/
def strTagField (o : JObj) (k : String) (dflt : String) : Outcome String :=
  match jlookup o k with
  | none => .ok dflt
  | some Json.null => .ok dflt
  | some (Json.str s) => .ok s
  | some _ => .err ("json: cannot unmarshal value into string field " ++ k)

/-- Tag-driven decode of a float64 struct field (plain JSON number). -/
def numTagField (o : JObj) (k : String) (dflt : Rat) : Outcome Rat :=
  match jlookup o k with
  | none => .ok dflt
  | some Json.null => .ok dflt
  | some (Json.num q) => .ok q
  | some _ => .err ("json: cannot unmarshal value into float64 field " ++ k)

/-- Tag-driven decode of a float64 field carrying the string option of the
json tag: the JSON value must be a string containing a number. -/
def strNumField (o : JObj) (k : String) : Outcome Rat :=
  match jlookup o k with
  | none => .ok 0
  | some Json.null => .ok 0
  | some (Json.str s) =>
    match parseFloatQ s with
    | some q => .ok q
    | none => .err ("json: invalid number literal " ++ s)
  | some _ => .err "json: invalid use of string option"

/-- Like strNumField for an int field. -/
def intStrField (o : JObj) (k : String) : Outcome Int :=
  match jlookup o k with
  | none => .ok 0
  | some Json.null => .ok 0
  | some (Json.str s) =>
    match parseIntGo s with
    | some n => .ok n
    | none => .err ("json: invalid number literal " ++ s)
  | some _ => .err "json: invalid use of string option"

/-- Decode of one OHLCV value object by its json tags: absent fields keep
the zero value, the Timestamp field carries tag - and is never read. -/
def decodeOHLCV (v : Json) : Outcome OHLCV :=
  match v with
  | Json.null => .ok {}
  | Json.obj o =>
    Outcome.bind (strNumField o "1. open") fun vOpen =>
    Outcome.bind (strNumField o "2. high") fun vHigh =>
    Outcome.bind (strNumField o "3. low") fun vLow =>
    Outcome.bind (strNumField o "4. close") fun vClose =>
    Outcome.bind (intStrField o "5. volume") fun vVol =>
    .ok { Timestamp := 0, Open := vOpen, High := vHigh, Low := vLow,
          Close := vClose, Volume := vVol }
  | _ => .err "json: cannot unmarshal value into OHLCV"

/-- Tag-driven decode of the Meta Data block used by the fixed-key
time-series family (default unmarshal through the aux struct): an absent
key leaves the receiver metadata untouched. -/
def decodeMetaTags (recv : TimeSeriesMetaData) (mv : Option Json) : Outcome TimeSeriesMetaData :=
  match mv with
  | none => .ok recv
  | some Json.null => .ok recv
  | some (Json.obj m) =>
    Outcome.bind (strTagField m "1. Information" recv.Information) fun f1 =>
    Outcome.bind (strTagField m "2. Symbol" recv.Symbol) fun f2 =>
    Outcome.bind (strTagField m "3. Last Refreshed" recv.LastRefreshed) fun f3 =>
    Outcome.bind (strTagField m "4. Interval" recv.Interval) fun f4 =>
    Outcome.bind (strTagField m "5. Output Size" recv.OutputSize) fun f5 =>
    Outcome.bind (strTagField m "6. Time Zone" recv.TimeZone) fun f6 =>
    Outcome.bind (numTagField m "5. Time Period" recv.TimePeriod) fun f7 =>
    Outcome.bind (strTagField m "6. Series Type" recv.SeriesType) fun f8 =>
    Outcome.bind (strTagField m "6. Volume Factor (vFactor)" recv.VolumeFactor) fun f9 =>
    .ok { Information := f1, Symbol := f2, LastRefreshed := f3, Interval := f4,
          OutputSize := f5, TimeZone := f6, TimePeriod := f7, SeriesType := f8,
          VolumeFactor := f9 }
  | some _ => .err "json: cannot unmarshal value into TimeSeriesMetaData"

/-- The raw series map found under a fixed key: absent (or null) decodes
to the empty map, an object gives its fields, anything else errors. -/
def seriesObjAt (top : JObj) (k : String) : Outcome JObj :=
  match jlookup top k with
  | none => .ok []
  | some Json.null => .ok []
  | some (Json.obj o) => .ok o
  | some _ => .err ("json: cannot unmarshal value into map field " ++ k)

/-- Value half of the daily decoder: the default unmarshal first decodes
every value object of the raw map into an OHLCV. -/
def decodeRawSeries : JObj → Outcome (List (String × OHLCV))
  | [] => .ok []
  | (k, v) :: rest =>
    Outcome.bind (decodeOHLCV v) fun b =>
    Outcome.bind (decodeRawSeries rest) fun m =>
    .ok ((k, b) :: m)

/-- Date half of the daily decoder (part_000 lines 309-317): each raw map
key is parsed with the date layout and stamped onto its entry. -/
def datedEntries : List (String × OHLCV) → Outcome (List OHLCV)
  | [] => .ok []
  | (k, b) :: rest =>
    match parseDate k with
    | none => .err ("parsing time " ++ k)
    | some t =>
      Outcome.bind (datedEntries rest) fun es =>
      .ok ({ b with Timestamp := t } :: es)

/-- TimeSeriesDaily.UnmarshalJSON (part_000 lines 293-325): fixed series
key, rebuilt slice, final ascending sort. -/
def TimeSeriesDaily.UnmarshalJSON (ts : TimeSeriesDaily) (j : Json) : Outcome TimeSeriesDaily :=
  match j with
  | Json.obj top =>
    Outcome.bind (decodeMetaTags ts.MetaData (jlookup top "Meta Data")) fun md =>
    Outcome.bind (seriesObjAt top "Time Series (Daily)") fun so =>
    Outcome.bind (decodeRawSeries so) fun raw =>
    Outcome.bind (datedEntries raw) fun es =>
    .ok { MetaData := md, TimeSeries := sortByTs (fun e => e.Timestamp) es }
  | _ => .err "json: cannot unmarshal value into TimeSeriesDaily"

/-- An unchecked Go type assertion to string on a map lookup. -/
def assertString (v : Option Json) : Outcome String :=
  match v with
  | some (Json.str s) => .ok s
  | _ => .panic "interface conversion"

/-- The metadata block of TimeSeriesIntraday.UnmarshalJSON (part_000 lines
247-254): six unchecked type assertions on the six expected keys. -/
def intradayMetaFields (recv : TimeSeriesMetaData) (m : JObj) : Outcome TimeSeriesMetaData :=
  Outcome.bind (assertString (jlookup m "1. Information")) fun f1 =>
  Outcome.bind (assertString (jlookup m "2. Symbol")) fun f2 =>
  Outcome.bind (assertString (jlookup m "3. Last Refreshed")) fun f3 =>
  Outcome.bind (assertString (jlookup m "4. Interval")) fun f4 =>
  Outcome.bind (assertString (jlookup m "5. Output Size")) fun f5 =>
  Outcome.bind (assertString (jlookup m "6. Time Zone")) fun f6 =>
  .ok { recv with
          Information := f1, Symbol := f2, LastRefreshed := f3,
          Interval := f4, OutputSize := f5, TimeZone := f6 }

/-- Per-entry loop of the intraday decoder: timestamp first (date-time
layout with seconds), then the value object. -/
def buildIntradayEntries : JObj → Outcome (List OHLCV)
  | [] => .ok []
  | (k, v) :: rest =>
    match parseDateTime k with
    | none => .err ("parsing time " ++ k)
    | some t =>
      Outcome.bind (decodeOHLCV v) fun b =>
      Outcome.bind (buildIntradayEntries rest) fun es =>
      .ok ({ b with Timestamp := t } :: es)

/-- Scan of the top-level keys for the Time Series prefix (part_000 lines
256-282), appending every matching block to the accumulated slice. -/
def intradayScan (acc : List OHLCV) : JObj → Outcome (List OHLCV)
  | [] => .ok acc
  | (k, v) :: rest =>
    if strStartsWith k "Time Series" then
      match v with
      | Json.obj o =>
        Outcome.bind (buildIntradayEntries o) fun es => intradayScan (acc ++ es) rest
      | _ => .err "expected map for time series data"
    else intradayScan acc rest

/-- Comma-ok assertion guarding the intraday metadata block: a present
Meta Data object is processed by the six assertions, anything else is
skipped and the receiver metadata kept. -/
def intradayMeta (recv : TimeSeriesMetaData) (top : JObj) : Outcome TimeSeriesMetaData :=
  match jlookup top "Meta Data" with
  | some (Json.obj m) => intradayMetaFields recv m
  | _ => .ok recv

/-- TimeSeriesIntraday.UnmarshalJSON (part_000 lines 241-290).  The
receiver slice is appended to, not reset, and the sort is stable. -/
def TimeSeriesIntraday.UnmarshalJSON (t : TimeSeriesIntraday) (j : Json) :
    Outcome TimeSeriesIntraday :=
  match j with
  | Json.obj top =>
    Outcome.bind (intradayMeta t.MetaData top) fun md =>
    Outcome.bind (intradayScan t.TimeSeries top) fun es =>
    .ok { MetaData := md, TimeSeries := sortByTs (fun e => e.Timestamp) es }
  | _ => .err "json: cannot unmarshal value into map"

/-- An unchecked Go type assertion to string on an interface value. -/
def assertStringV (v : Json) : Outcome String :=
  match v with
  | Json.str s => .ok s
  | _ => .panic "interface conversion"

/-- An unchecked Go type assertion to float64 on an interface value. -/
def assertFloatV (v : Json) : Outcome Rat :=
  match v with
  | Json.num q => .ok q
  | _ => .panic "interface conversion"

/-- Switch body of extractMetaData (part_001 lines 103-120): indicator
ordinal-key dialect with unchecked assertions; unknown keys fall through
to the default case and are ignored. -/
def metaFieldUpd (acc : TimeSeriesMetaData) (k : String) (v : Json) : Outcome TimeSeriesMetaData :=
  if k = "1: Symbol" then
    Outcome.bind (assertStringV v) fun s => .ok { acc with Symbol := s }
  else if k = "2: Indicator" then
    Outcome.bind (assertStringV v) fun s => .ok { acc with Information := s }
  else if k = "3: Last Refreshed" then
    Outcome.bind (assertStringV v) fun s => .ok { acc with LastRefreshed := s }
  else if k = "4: Interval" then
    Outcome.bind (assertStringV v) fun s => .ok { acc with Interval := s }
  else if k = "5: Time Period" then
    Outcome.bind (assertFloatV v) fun q => .ok { acc with TimePeriod := q }
  else if k = "6: Series Type" then
    Outcome.bind (assertStringV v) fun s => .ok { acc with SeriesType := s }
  else if k = "7: Time Zone" then
    Outcome.bind (assertStringV v) fun s => .ok { acc with TimeZone := s }
  else .ok acc

def metaFold (acc : TimeSeriesMetaData) : JObj → Outcome TimeSeriesMetaData
  | [] => .ok acc
  | (k, v) :: rest => Outcome.bind (metaFieldUpd acc k v) fun a => metaFold a rest

/-- extractMetaData (part_001 lines 100-122): fresh metadata value filled
from the block by the switch. -/
def extractMetaData (m : JObj) : Outcome TimeSeriesMetaData := metaFold {} m

/-- Inner sub-field loop of UnmarshalIndicatorJSON (part_001 lines 75-83):
only string-valued sub-fields are parsed and captured; a sub-field holding
any other value type is silently skipped. -/
def buildValueMap : JObj → Outcome (List (String × Rat))
  | [] => .ok []
  | (name, rv) :: rest =>
    match rv with
    | Json.str s =>
      match parseFloatQ s with
      | some q => Outcome.bind (buildValueMap rest) fun m => .ok ((name, q) :: m)
      | none => .err ("invalid syntax " ++ s)
    | _ => buildValueMap rest

/-- Per-timestamp loop of the indicator decoder (part_001 lines 61-89):
minute-layout timestamp, value object check, open-ended sub-field map. -/
def buildIndicatorEntries : JObj → Outcome (List IndicatorValue)
  | [] => .ok []
  | (k, v) :: rest =>
    match parseDateTimeMin k with
    | none => .err ("parsing time " ++ k)
    | some t =>
      match v with
      | Json.obj o =>
        Outcome.bind (buildValueMap o) fun vm =>
        Outcome.bind (buildIndicatorEntries rest) fun es =>
        .ok ({ Timestamp := t, Values := vm } :: es)
      | _ => .err "expected map for each timestamp data"

/-- UnmarshalIndicatorJSON (part_001 lines 43-98).  The value block key is
the literal concatenation; a missing or non-object block is skipped
silently; the receiver slice is appended to, not reset. -/
def indicatorMeta (recv : TimeSeriesMetaData) (top : JObj) : Outcome TimeSeriesMetaData :=
  match jlookup top "Meta Data" with
  | some (Json.obj m) => extractMetaData m
  | _ => .ok recv

def UnmarshalIndicatorJSON (i : IndicatorResponse) (j : Json) (indicatorName : String) :
    Outcome IndicatorResponse :=
  match j with
  | Json.obj top =>
    Outcome.bind (indicatorMeta i.MetaData top) fun md =>
    match jlookup top ("Technical Analysis: " ++ indicatorName) with
    | some (Json.obj tsData) =>
      Outcome.bind (buildIndicatorEntries tsData) fun es =>
      .ok { MetaData := md,
            IndicatorValues := sortByTs (fun e => e.Timestamp) (i.IndicatorValues ++ es) }
    | _ => .ok { MetaData := md,
                 IndicatorValues := sortByTs (fun e => e.Timestamp) i.IndicatorValues }
  | _ => .err "json: cannot unmarshal value into map"

/-- Switch body of extractCryptoMetaData (crypto.go lines 143-159). -/
def cryptoMetaFieldUpd (acc : CryptoMetaData) (k : String) (v : Json) : Outcome CryptoMetaData :=
  if k = "1. Information" then
    Outcome.bind (assertStringV v) fun s => .ok { acc with Information := s }
  else if k = "2. Digital Currency Code" then
    Outcome.bind (assertStringV v) fun s => .ok { acc with DigitalCurrencyCode := s }
  else if k = "3. Digital Currency Name" then
    Outcome.bind (assertStringV v) fun s => .ok { acc with DigitalCurrencyName := s }
  else if k = "4. Market Code" then
    Outcome.bind (assertStringV v) fun s => .ok { acc with MarketCode := s }
  else if k = "5. Market Name" then
    Outcome.bind (assertStringV v) fun s => .ok { acc with MarketName := s }
  else if k = "6. Last Refreshed" then
    Outcome.bind (assertStringV v) fun s => .ok { acc with LastRefreshed := s }
  else if k = "7. Time Zone" then
    Outcome.bind (assertStringV v) fun s => .ok { acc with TimeZone := s }
  else .ok acc

def cryptoMetaFold (acc : CryptoMetaData) : JObj → Outcome CryptoMetaData
  | [] => .ok acc
  | (k, v) :: rest => Outcome.bind (cryptoMetaFieldUpd acc k v) fun a => cryptoMetaFold a rest

/-- extractCryptoMetaData (crypto.go lines 140-162). -/
def extractCryptoMetaData (m : JObj) : Outcome CryptoMetaData := cryptoMetaFold {} m

/-- The six fixed sub-fields of one crypto entry (crypto.go lines 112-117):
unchecked string assertions, with every ParseFloat error discarded and the
value defaulted to zero. -/
def cryptoVals (vm : JObj) : Outcome CryptoTimeSeriesData :=
  Outcome.bind (assertString (jlookup vm "1a. open (USD)")) fun sOpen =>
  Outcome.bind (assertString (jlookup vm "2a. high (USD)")) fun sHigh =>
  Outcome.bind (assertString (jlookup vm "3a. low (USD)")) fun sLow =>
  Outcome.bind (assertString (jlookup vm "4a. close (USD)")) fun sClose =>
  Outcome.bind (assertString (jlookup vm "5. volume")) fun sVol =>
  Outcome.bind (assertString (jlookup vm "6. market cap (USD)")) fun sCap =>
  .ok { Timestamp := 0, Open := (parseFloatQ sOpen).getD 0,
        High := (parseFloatQ sHigh).getD 0, Low := (parseFloatQ sLow).getD 0,
        Close := (parseFloatQ sClose).getD 0, Volume := (parseFloatQ sVol).getD 0,
        MarketCap := (parseFloatQ sCap).getD 0 }

/-- Per-entry loop of the crypto decoder (crypto.go lines 101-128). -/
def buildCryptoEntries : JObj → Outcome (List CryptoTimeSeriesData)
  | [] => .ok []
  | (date, values) :: rest =>
    match parseDate date with
    | none => .err ("parsing time " ++ date)
    | some t =>
      match values with
      | Json.obj vm =>
        Outcome.bind (cryptoVals vm) fun b =>
        Outcome.bind (buildCryptoEntries rest) fun es =>
        .ok ({ b with Timestamp := t } :: es)
      | _ => .err "expected map for timestamp data"

/-- Scan of the top-level keys for the Time Series prefix (crypto.go lines
97-130): the matching key becomes the interval label, and the value is
cast by an unchecked assertion (panic on a non-object). -/
def cryptoScan (label : String) (acc : List CryptoTimeSeriesData) :
    JObj → Outcome (String × List CryptoTimeSeriesData)
  | [] => .ok (label, acc)
  | (k, v) :: rest =>
    if strStartsWith k "Time Series" then
      match v with
      | Json.obj o =>
        Outcome.bind (buildCryptoEntries o) fun es => cryptoScan k (acc ++ es) rest
      | _ => .panic "interface conversion"
    else cryptoScan label acc rest

/-- UnmarshalCryptoJSON (crypto.go lines 85-138).  The receiver slice is
appended to, not reset; the final sort is stable. -/
def cryptoMeta (recv : CryptoMetaData) (top : JObj) : Outcome CryptoMetaData :=
  match jlookup top "Meta Data" with
  | some (Json.obj m) => extractCryptoMetaData m
  | _ => .ok recv

def UnmarshalCryptoJSON (c : CryptoSeriesResponse) (j : Json) : Outcome CryptoSeriesResponse :=
  match j with
  | Json.obj top =>
    Outcome.bind (cryptoMeta c.MetaData top) fun md =>
    Outcome.bind (cryptoScan c.IntervalLabel c.TimeSeries top) fun p =>
    .ok { MetaData := md, TimeSeries := sortByTs (fun e => e.Timestamp) p.2,
          IntervalLabel := p.1 }
  | _ => .err "json: cannot unmarshal value into map"

/-- The Global Quote raw map (map of string to string): every value must
be a JSON string or the default unmarshal fails. -/
def allStringVals : JObj → Outcome (List (String × String))
  | [] => .ok []
  | (k, v) :: rest =>
    match v with
    | Json.str s => Outcome.bind (allStringVals rest) fun m => .ok ((k, s) :: m)
    | _ => .err "json: cannot unmarshal value into map of string"

def getGlobalQuote (j : Json) : Outcome (List (String × String)) :=
  match j with
  | Json.obj top =>
    match jlookup top "Global Quote" with
    | none => .ok []
    | some Json.null => .ok []
    | some (Json.obj o) => allStringVals o
    | some _ => .err "json: cannot unmarshal value into map of string"
  | _ => .err "json: cannot unmarshal value into Quote"

/-- Go map lookup on the raw quote map: a missing key gives the empty
string, exactly as a Go map of string does. -/
def rqGet (m : List (String × String)) (k : String) : String :=
  match m with
  | [] => ""
  | (k2, s) :: rest => if k2 = k then s else rqGet rest k

/-- One parsed quote field; on failure the error names the field (the Go
message wraps the name in single quotes, dropped here). -/
def parseQuoteFloat (fieldName : String) (s : String) : Outcome Rat :=
  match parseFloatQ s with
  | some q => .ok q
  | none => .err ("error parsing " ++ fieldName)

/-- Field mapping half of Quote.UnmarshalJSON (part_000 lines 505-557):
eight parsed fields in source order, two literal string fields. -/
def quoteFromMap (q : Quote) (m : List (String × String)) : Outcome Quote :=
  Outcome.bind (parseQuoteFloat "open" (rqGet m "02. open")) fun vOpen =>
  Outcome.bind (parseQuoteFloat "high" (rqGet m "03. high")) fun vHigh =>
  Outcome.bind (parseQuoteFloat "low" (rqGet m "04. low")) fun vLow =>
  Outcome.bind (parseQuoteFloat "price" (rqGet m "05. price")) fun vPrice =>
  Outcome.bind
    (match parseIntGo (rqGet m "06. volume") with
     | some n => .ok n
     | none => .err "error parsing volume") fun vVol =>
  Outcome.bind
    (match parseDate (rqGet m "07. latest trading day") with
     | some t => .ok t
     | none => .err "error parsing latest trading day") fun vDay =>
  Outcome.bind (parseQuoteFloat "previous close" (rqGet m "08. previous close")) fun vPrev =>
  Outcome.bind (parseQuoteFloat "change" (rqGet m "09. change")) fun vChg =>
  .ok { Symbol := rqGet m "01. symbol", Open := vOpen, High := vHigh, Low := vLow,
        Price := vPrice, Volume := vVol, LatestTradingDay := vDay,
        PreviousClose := vPrev, Change := vChg,
        ChangePercent := rqGet m "10. change percent" }

/-- Quote.UnmarshalJSON (part_000 lines 490-559). -/
def Quote.UnmarshalJSON (q : Quote) (j : Json) : Outcome Quote :=
  Outcome.bind (getGlobalQuote j) (quoteFromMap q)

/-- The six metadata keys the intraday decoder asserts unconditionally. -/
def intradayMetaKeys : List String :=
  ["1. Information", "2. Symbol", "3. Last Refreshed", "4. Interval",
   "5. Output Size", "6. Time Zone"]

/-- The recognised keys of the indicator metadata switch. -/
def tsIndicatorMetaKeys : List String :=
  ["1: Symbol", "2: Indicator", "3: Last Refreshed", "4: Interval",
   "5: Time Period", "6: Series Type", "7: Time Zone"]

/-- The recognised keys of the crypto metadata switch. -/
def cryptoMetaKeys : List String :=
  ["1. Information", "2. Digital Currency Code", "3. Digital Currency Name",
   "4. Market Code", "5. Market Name", "6. Last Refreshed", "7. Time Zone"]

/-- The concrete daily payload of the spec, scenario A. -/
def payloadA : Json := Json.obj [
  ("Meta Data", Json.obj [
    ("1. Information", Json.str "Daily Prices"),
    ("2. Symbol", Json.str "MSFT"),
    ("3. Last Refreshed", Json.str "2023-09-08"),
    ("4. Interval", Json.str "Daily"),
    ("5. Output Size", Json.str "Compact"),
    ("6. Time Zone", Json.str "US/Eastern")]),
  ("Time Series (Daily)", Json.obj [
    ("2023-09-08", Json.obj [
      ("1. open", Json.str "330.00"),
      ("2. high", Json.str "335.00"),
      ("3. low", Json.str "329.00"),
      ("4. close", Json.str "334.00"),
      ("5. volume", Json.str "1000000")])])]

/-- A crypto payload whose open sub-field holds a non-numeric string. -/
def cryptoBadOpenPayload : Json := Json.obj [
  ("Time Series (Digital Currency Daily)", Json.obj [
    ("2023-09-08", Json.obj [
      ("1a. open (USD)", Json.str "N/A"),
      ("2a. high (USD)", Json.str "2"),
      ("3a. low (USD)", Json.str "1"),
      ("4a. close (USD)", Json.str "1.5"),
      ("5. volume", Json.str "10"),
      ("6. market cap (USD)", Json.str "20")])])]

/-- A Global Quote payload whose price field is malformed. -/
def quoteBadPricePayload : Json := Json.obj [("Global Quote", Json.obj [
  ("01. symbol", Json.str "IBM"), ("02. open", Json.str "1.0"),
  ("03. high", Json.str "2.0"), ("04. low", Json.str "0.5"),
  ("05. price", Json.str "N/A"), ("06. volume", Json.str "100"),
  ("07. latest trading day", Json.str "2023-09-08"),
  ("08. previous close", Json.str "1.1"), ("09. change", Json.str "0.2"),
  ("10. change percent", Json.str "3.5%")])]

/-- The raw string map carried by quoteBadPricePayload. -/
def quoteBadPriceMap : List (String × String) :=
  [("01. symbol", "IBM"), ("02. open", "1.0"), ("03. high", "2.0"), ("04. low", "0.5"),
   ("05. price", "N/A"), ("06. volume", "100"), ("07. latest trading day", "2023-09-08"),
   ("08. previous close", "1.1"), ("09. change", "0.2"), ("10. change percent", "3.5%")]

/-- A daily payload whose two dated entries arrive in descending order,
scenario B of the spec. -/
def dailyTwoDatesObj : JObj :=
  [("Time Series (Daily)", Json.obj [
    ("2023-09-08", Json.obj [("1. open", Json.str "2")]),
    ("2023-09-07", Json.obj [("1. open", Json.str "1")])])]

/-- An intraday payload whose two timestamps arrive in descending order. -/
def intradayTwoObj : JObj :=
  [("Time Series (1min)", Json.obj [
    ("2023-09-08 10:30:00", Json.obj [("1. open", Json.str "2")]),
    ("2023-09-08 09:00:00", Json.obj [("1. open", Json.str "1")])])]

@[simp] theorem Outcome.bind_ok {α β : Type} (a : α) (f : α → Outcome β) :
    Outcome.bind (.ok a) f = f a := rfl

@[simp] theorem Outcome.bind_err {α β : Type} (m : String) (f : α → Outcome β) :
    Outcome.bind (.err m) f = .err m := rfl

@[simp] theorem Outcome.bind_panic {α β : Type} (m : String) (f : α → Outcome β) :
    Outcome.bind (.panic m) f = .panic m := rfl

theorem Outcome.bind_eq_ok {α β : Type} {a : Outcome α} {f : α → Outcome β} {b : β}
    (h : Outcome.bind a f = .ok b) : ∃ x, a = .ok x ∧ f x = .ok b := by
  cases a with
  | ok x => exact ⟨x, rfl, h⟩
  | err m => simp [Outcome.bind] at h
  | panic m => simp [Outcome.bind] at h

theorem digitVal_eq_some {c : Char} {v : Nat} (h : digitVal c = some v) :
    c.toNat = v + 48 ∧ v ≤ 9 := by
  unfold digitVal at h
  split at h
  · rename_i hc
    cases h
    omega
  · cases h

theorem digitVal_char_eq {c d : Char} {v : Nat}
    (hc : digitVal c = some v) (hd : digitVal d = some v) : c = d := by
  have h1 := (digitVal_eq_some hc).1
  have h2 := (digitVal_eq_some hd).1
  have : c.toNat = d.toNat := by omega
  have := congrArg Char.ofNat this
  simpa [Char.ofNat_toNat] using this

theorem parseDateChars_inj {l1 l2 : List Char} {t : Nat}
    (h1 : parseDateChars l1 = some t) (h2 : parseDateChars l2 = some t) : l1 = l2 := by
  rcases l1 with _|⟨a1,_|⟨b1,_|⟨c1,_|⟨d1,_|⟨e1,_|⟨f1,_|⟨g1,_|⟨p1,_|⟨i1,_|⟨j1,_|⟨k1,r1⟩⟩⟩⟩⟩⟩⟩⟩⟩⟩⟩ <;>
    try exact Option.noConfusion h1
  rcases l2 with _|⟨a2,_|⟨b2,_|⟨c2,_|⟨d2,_|⟨e2,_|⟨f2,_|⟨g2,_|⟨p2,_|⟨i2,_|⟨j2,_|⟨k2,r2⟩⟩⟩⟩⟩⟩⟩⟩⟩⟩⟩ <;>
    try exact Option.noConfusion h2
  simp only [parseDateChars] at h1 h2
  rw [Option.ite_none_right_eq_some] at h1 h2
  obtain ⟨⟨he1, hp1⟩, h1⟩ := h1
  obtain ⟨⟨he2, hp2⟩, h2⟩ := h2
  rw [Option.bind_eq_some] at h1; obtain ⟨va1, hva1, h1⟩ := h1
  rw [Option.bind_eq_some] at h1; obtain ⟨vb1, hvb1, h1⟩ := h1
  rw [Option.bind_eq_some] at h1; obtain ⟨vc1, hvc1, h1⟩ := h1
  rw [Option.bind_eq_some] at h1; obtain ⟨vd1, hvd1, h1⟩ := h1
  rw [Option.bind_eq_some] at h1; obtain ⟨vf1, hvf1, h1⟩ := h1
  rw [Option.bind_eq_some] at h1; obtain ⟨vg1, hvg1, h1⟩ := h1
  rw [Option.bind_eq_some] at h1; obtain ⟨vi1, hvi1, h1⟩ := h1
  rw [Option.bind_eq_some] at h1; obtain ⟨vj1, hvj1, h1⟩ := h1
  rw [Option.ite_none_right_eq_some] at h1
  obtain ⟨hr1, h1⟩ := h1
  rw [Option.bind_eq_some] at h2; obtain ⟨va2, hva2, h2⟩ := h2
  rw [Option.bind_eq_some] at h2; obtain ⟨vb2, hvb2, h2⟩ := h2
  rw [Option.bind_eq_some] at h2; obtain ⟨vc2, hvc2, h2⟩ := h2
  rw [Option.bind_eq_some] at h2; obtain ⟨vd2, hvd2, h2⟩ := h2
  rw [Option.bind_eq_some] at h2; obtain ⟨vf2, hvf2, h2⟩ := h2
  rw [Option.bind_eq_some] at h2; obtain ⟨vg2, hvg2, h2⟩ := h2
  rw [Option.bind_eq_some] at h2; obtain ⟨vi2, hvi2, h2⟩ := h2
  rw [Option.bind_eq_some] at h2; obtain ⟨vj2, hvj2, h2⟩ := h2
  rw [Option.ite_none_right_eq_some] at h2
  obtain ⟨hr2, h2⟩ := h2
  have henc : encodeTS (((va1 * 10 + vb1) * 10 + vc1) * 10 + vd1) (vf1 * 10 + vg1)
      (vi1 * 10 + vj1) 0 0 0 =
      encodeTS (((va2 * 10 + vb2) * 10 + vc2) * 10 + vd2) (vf2 * 10 + vg2)
      (vi2 * 10 + vj2) 0 0 0 := by
    rw [Option.some.injEq] at h1 h2
    omega
  have hba1 := digitVal_eq_some hva1
  have hbb1 := digitVal_eq_some hvb1
  have hbc1 := digitVal_eq_some hvc1
  have hbd1 := digitVal_eq_some hvd1
  have hbf1 := digitVal_eq_some hvf1
  have hbg1 := digitVal_eq_some hvg1
  have hbi1 := digitVal_eq_some hvi1
  have hbj1 := digitVal_eq_some hvj1
  have hba2 := digitVal_eq_some hva2
  have hbb2 := digitVal_eq_some hvb2
  have hbc2 := digitVal_eq_some hvc2
  have hbd2 := digitVal_eq_some hvd2
  have hbf2 := digitVal_eq_some hvf2
  have hbg2 := digitVal_eq_some hvg2
  have hbi2 := digitVal_eq_some hvi2
  have hbj2 := digitVal_eq_some hvj2
  unfold encodeTS at henc
  have hda : va1 = va2 := by omega
  have hdb : vb1 = vb2 := by omega
  have hdc : vc1 = vc2 := by omega
  have hdd : vd1 = vd2 := by omega
  have hdf : vf1 = vf2 := by omega
  have hdg : vg1 = vg2 := by omega
  have hdi : vi1 = vi2 := by omega
  have hdj : vj1 = vj2 := by omega
  subst hda hdb hdc hdd hdf hdg hdi hdj
  have ea : a1 = a2 := digitVal_char_eq hva1 hva2
  have eb : b1 = b2 := digitVal_char_eq hvb1 hvb2
  have ec : c1 = c2 := digitVal_char_eq hvc1 hvc2
  have ed : d1 = d2 := digitVal_char_eq hvd1 hvd2
  have ef : f1 = f2 := digitVal_char_eq hvf1 hvf2
  have eg : g1 = g2 := digitVal_char_eq hvg1 hvg2
  have ei : i1 = i2 := digitVal_char_eq hvi1 hvi2
  have ej : j1 = j2 := digitVal_char_eq hvj1 hvj2
  subst ea eb ec ed ef eg ei ej he1 he2 hp1 hp2
  rfl

theorem parseDate_inj {s1 s2 : String} {t : Nat}
    (h1 : parseDate s1 = some t) (h2 : parseDate s2 = some t) : s1 = s2 := by
  cases s1 with
  | mk l1 =>
    cases s2 with
    | mk l2 =>
      have : l1 = l2 := parseDateChars_inj h1 h2
      rw [this]

theorem insertByTs_perm {α : Type} (key : α → Nat) (x : α) (l : List α) :
    (insertByTs key x l).Perm (x :: l) := by
  induction l with
  | nil => rfl
  | cons y ys ih =>
    unfold insertByTs
    split
    · exact (ih.cons y).trans (List.Perm.swap x y ys)
    · rfl

theorem sortGo_perm {α : Type} (key : α → Nat) (l acc : List α) :
    (sortGo key acc l).Perm (acc ++ l) := by
  induction l generalizing acc with
  | nil => simp [sortGo]
  | cons x xs ih =>
    have h1 : (sortGo key (insertByTs key x acc) xs).Perm (insertByTs key x acc ++ xs) := ih _
    have h2 : (insertByTs key x acc ++ xs).Perm ((x :: acc) ++ xs) :=
      (insertByTs_perm key x acc).append_right xs
    have h3 : ((x :: acc) ++ xs).Perm (acc ++ x :: xs) := List.perm_middle.symm
    exact (h1.trans h2).trans h3

theorem sortByTs_perm {α : Type} (key : α → Nat) (l : List α) :
    (sortByTs key l).Perm l := sortGo_perm key l []

theorem insertByTs_sorted {α : Type} {key : α → Nat} {x : α} {l : List α}
    (h : l.Pairwise (fun a b => key a ≤ key b)) :
    (insertByTs key x l).Pairwise (fun a b => key a ≤ key b) := by
  induction l with
  | nil => simp [insertByTs]
  | cons y ys ih =>
    rw [List.pairwise_cons] at h
    obtain ⟨hy, hys⟩ := h
    unfold insertByTs
    split
    · rename_i hle
      rw [List.pairwise_cons]
      refine ⟨?_, ih hys⟩
      intro z hz
      rw [(insertByTs_perm key x ys).mem_iff] at hz
      rcases List.mem_cons.mp hz with rfl | hz
      · exact hle
      · exact hy z hz
    · rename_i hgt
      rw [List.pairwise_cons]
      refine ⟨?_, List.pairwise_cons.mpr ⟨hy, hys⟩⟩
      intro z hz
      rcases List.mem_cons.mp hz with rfl | hz
      · exact Nat.le_of_lt (Nat.lt_of_not_le hgt)
      · exact le_trans (Nat.le_of_lt (Nat.lt_of_not_le hgt)) (hy z hz)

theorem sortGo_sorted {α : Type} {key : α → Nat} (l : List α) (acc : List α)
    (h : acc.Pairwise (fun a b => key a ≤ key b)) :
    (sortGo key acc l).Pairwise (fun a b => key a ≤ key b) := by
  induction l generalizing acc with
  | nil => exact h
  | cons x xs ih => exact ih _ (insertByTs_sorted h)

theorem sortByTs_sorted {α : Type} (key : α → Nat) (l : List α) :
    (sortByTs key l).Pairwise (fun a b => key a ≤ key b) :=
  sortGo_sorted l [] List.Pairwise.nil

theorem insertByTs_filter_ne {α : Type} {key : α → Nat} {x : α} {t : Nat}
    (h : key x ≠ t) (l : List α) :
    (insertByTs key x l).filter (fun a => key a == t) =
      l.filter (fun a => key a == t) := by
  induction l with
  | nil => simp [insertByTs, h]
  | cons y ys ih =>
    unfold insertByTs
    split
    · simp only [List.filter_cons, ih]
    · simp [List.filter_cons, h]

theorem insertByTs_filter_eq {α : Type} {key : α → Nat} {x : α} {t : Nat}
    (h : key x = t) {l : List α}
    (hs : l.Pairwise (fun a b => key a ≤ key b)) :
    (insertByTs key x l).filter (fun a => key a == t) =
      l.filter (fun a => key a == t) ++ [x] := by
  induction l with
  | nil => simp [insertByTs, h]
  | cons y ys ih =>
    rw [List.pairwise_cons] at hs
    obtain ⟨hy, hys⟩ := hs
    unfold insertByTs
    split
    · rename_i hle
      simp only [List.filter_cons, ih hys]
      split <;> simp
    · rename_i hgt
      have hnone : (y :: ys).filter (fun a => key a == t) = [] := by
        rw [List.filter_eq_nil_iff]
        intro a ha
        have hka : key y ≤ key a := by
          rcases List.mem_cons.mp ha with rfl | ha
          · exact Nat.le_refl _
          · exact hy a ha
        have : t < key a := lt_of_lt_of_le (h ▸ Nat.lt_of_not_le hgt) hka
        simp only [beq_iff_eq]
        omega
      simp [List.filter_cons, h, hnone]

theorem sortGo_filter {α : Type} {key : α → Nat} {t : Nat} (l : List α) (acc : List α)
    (hs : acc.Pairwise (fun a b => key a ≤ key b)) :
    (sortGo key acc l).filter (fun a => key a == t) =
      acc.filter (fun a => key a == t) ++ l.filter (fun a => key a == t) := by
  induction l generalizing acc with
  | nil => simp [sortGo]
  | cons x xs ih =>
    show (sortGo key (insertByTs key x acc) xs).filter _ = _
    rw [ih _ (insertByTs_sorted hs)]
    by_cases hx : key x = t
    · rw [insertByTs_filter_eq hx hs]
      simp [List.filter_cons, hx]
    · rw [insertByTs_filter_ne hx]
      simp [List.filter_cons, hx]

theorem sortByTs_filter {α : Type} (key : α → Nat) (t : Nat) (l : List α) :
    (sortByTs key l).filter (fun a => key a == t) = l.filter (fun a => key a == t) :=
  sortGo_filter l [] List.Pairwise.nil

theorem pairwise_lt_of_sorted_nodup {α : Type} (key : α → Nat) {l : List α}
    (hs : l.Pairwise (fun a b => key a ≤ key b)) (hn : (l.map key).Nodup) :
    l.Pairwise (fun a b => key a < key b) := by
  have hne : l.Pairwise (fun a b => key a ≠ key b) := List.pairwise_map.mp hn
  exact (hs.and hne).imp (fun h => Nat.lt_of_le_of_ne h.1 h.2)

theorem daily_ok_inv {recv r : TimeSeriesDaily} {j : Json}
    (h : TimeSeriesDaily.UnmarshalJSON recv j = .ok r) :
    ∃ top md so raw es, j = Json.obj top ∧
      decodeMetaTags recv.MetaData (jlookup top "Meta Data") = .ok md ∧
      seriesObjAt top "Time Series (Daily)" = .ok so ∧
      decodeRawSeries so = .ok raw ∧
      datedEntries raw = .ok es ∧
      r = { MetaData := md, TimeSeries := sortByTs (fun e => e.Timestamp) es } := by
  cases j with
  | obj top =>
    simp only [TimeSeriesDaily.UnmarshalJSON] at h
    obtain ⟨md, h1, h⟩ := Outcome.bind_eq_ok h
    obtain ⟨so, h2, h⟩ := Outcome.bind_eq_ok h
    obtain ⟨raw, h3, h⟩ := Outcome.bind_eq_ok h
    obtain ⟨es, h4, h⟩ := Outcome.bind_eq_ok h
    exact ⟨top, md, so, raw, es, rfl, h1, h2, h3, h4, (Outcome.ok.inj h).symm⟩
  | null => exact absurd h (by simp [TimeSeriesDaily.UnmarshalJSON])
  | bool b => exact absurd h (by simp [TimeSeriesDaily.UnmarshalJSON])
  | num q => exact absurd h (by simp [TimeSeriesDaily.UnmarshalJSON])
  | str s => exact absurd h (by simp [TimeSeriesDaily.UnmarshalJSON])
  | arr xs => exact absurd h (by simp [TimeSeriesDaily.UnmarshalJSON])

theorem intraday_ok_inv {recv r : TimeSeriesIntraday} {j : Json}
    (h : TimeSeriesIntraday.UnmarshalJSON recv j = .ok r) :
    ∃ top md es, j = Json.obj top ∧
      intradayMeta recv.MetaData top = .ok md ∧
      intradayScan recv.TimeSeries top = .ok es ∧
      r = { MetaData := md, TimeSeries := sortByTs (fun e => e.Timestamp) es } := by
  cases j with
  | obj top =>
    simp only [TimeSeriesIntraday.UnmarshalJSON] at h
    obtain ⟨md, h1, h⟩ := Outcome.bind_eq_ok h
    obtain ⟨es, h2, h⟩ := Outcome.bind_eq_ok h
    exact ⟨top, md, es, rfl, h1, h2, (Outcome.ok.inj h).symm⟩
  | null => exact absurd h (by simp [TimeSeriesIntraday.UnmarshalJSON])
  | bool b => exact absurd h (by simp [TimeSeriesIntraday.UnmarshalJSON])
  | num q => exact absurd h (by simp [TimeSeriesIntraday.UnmarshalJSON])
  | str s => exact absurd h (by simp [TimeSeriesIntraday.UnmarshalJSON])
  | arr xs => exact absurd h (by simp [TimeSeriesIntraday.UnmarshalJSON])

theorem indicator_ok_inv {recv r : IndicatorResponse} {j : Json} {name : String}
    (h : UnmarshalIndicatorJSON recv j name = .ok r) :
    ∃ top md, j = Json.obj top ∧ indicatorMeta recv.MetaData top = .ok md ∧
      ((∃ tsData es, jlookup top ("Technical Analysis: " ++ name) = some (Json.obj tsData) ∧
          buildIndicatorEntries tsData = .ok es ∧
          r = { MetaData := md,
                IndicatorValues :=
                  sortByTs (fun e => e.Timestamp) (recv.IndicatorValues ++ es) }) ∨
        r = { MetaData := md,
              IndicatorValues := sortByTs (fun e => e.Timestamp) recv.IndicatorValues }) := by
  cases j with
  | obj top =>
    simp only [UnmarshalIndicatorJSON] at h
    obtain ⟨md, h1, h⟩ := Outcome.bind_eq_ok h
    refine ⟨top, md, rfl, h1, ?_⟩
    cases hk : jlookup top ("Technical Analysis: " ++ name) with
    | none =>
      rw [hk] at h
      exact Or.inr (Outcome.ok.inj h).symm
    | some v =>
      cases v with
      | obj tsData =>
        rw [hk] at h
        obtain ⟨es, h2, h⟩ := Outcome.bind_eq_ok h
        exact Or.inl ⟨tsData, es, rfl, h2, (Outcome.ok.inj h).symm⟩
      | null => rw [hk] at h; exact Or.inr (Outcome.ok.inj h).symm
      | bool b => rw [hk] at h; exact Or.inr (Outcome.ok.inj h).symm
      | num q => rw [hk] at h; exact Or.inr (Outcome.ok.inj h).symm
      | str s => rw [hk] at h; exact Or.inr (Outcome.ok.inj h).symm
      | arr xs => rw [hk] at h; exact Or.inr (Outcome.ok.inj h).symm
  | null => exact absurd h (by simp [UnmarshalIndicatorJSON])
  | bool b => exact absurd h (by simp [UnmarshalIndicatorJSON])
  | num q => exact absurd h (by simp [UnmarshalIndicatorJSON])
  | str s => exact absurd h (by simp [UnmarshalIndicatorJSON])
  | arr xs => exact absurd h (by simp [UnmarshalIndicatorJSON])

theorem crypto_ok_inv {recv r : CryptoSeriesResponse} {j : Json}
    (h : UnmarshalCryptoJSON recv j = .ok r) :
    ∃ top md p, j = Json.obj top ∧
      cryptoMeta recv.MetaData top = .ok md ∧
      cryptoScan recv.IntervalLabel recv.TimeSeries top = .ok p ∧
      r = { MetaData := md, TimeSeries := sortByTs (fun e => e.Timestamp) p.2,
            IntervalLabel := p.1 } := by
  cases j with
  | obj top =>
    simp only [UnmarshalCryptoJSON] at h
    obtain ⟨md, h1, h⟩ := Outcome.bind_eq_ok h
    obtain ⟨p, h2, h⟩ := Outcome.bind_eq_ok h
    exact ⟨top, md, p, rfl, h1, h2, (Outcome.ok.inj h).symm⟩
  | null => exact absurd h (by simp [UnmarshalCryptoJSON])
  | bool b => exact absurd h (by simp [UnmarshalCryptoJSON])
  | num q => exact absurd h (by simp [UnmarshalCryptoJSON])
  | str s => exact absurd h (by simp [UnmarshalCryptoJSON])
  | arr xs => exact absurd h (by simp [UnmarshalCryptoJSON])

theorem intradayScan_cons (acc : List OHLCV) (k : String) (v : Json) (rest : JObj) :
    intradayScan acc ((k, v) :: rest) =
      if strStartsWith k "Time Series" then
        match v with
        | Json.obj o =>
          Outcome.bind (buildIntradayEntries o) fun es => intradayScan (acc ++ es) rest
        | _ => .err "expected map for time series data"
      else intradayScan acc rest := rfl

theorem cryptoScan_cons (label : String) (acc : List CryptoTimeSeriesData) (k : String)
    (v : Json) (rest : JObj) :
    cryptoScan label acc ((k, v) :: rest) =
      if strStartsWith k "Time Series" then
        match v with
        | Json.obj o =>
          Outcome.bind (buildCryptoEntries o) fun es => cryptoScan k (acc ++ es) rest
        | _ => .panic "interface conversion"
      else cryptoScan label acc rest := rfl

theorem intradayScan_no_match {top : JObj} (acc : List OHLCV)
    (h : ∀ kv ∈ top, strStartsWith kv.1 "Time Series" = false) :
    intradayScan acc top = .ok acc := by
  induction top generalizing acc with
  | nil => rfl
  | cons kv rest ih =>
    have hk := h kv (List.mem_cons_self kv rest)
    obtain ⟨k, v⟩ := kv
    rw [intradayScan_cons]
    simp only [hk, Bool.false_eq_true, if_false]
    exact ih acc (fun kv2 hm => h kv2 (List.mem_cons_of_mem _ hm))

theorem cryptoScan_no_match {top : JObj} (label : String) (acc : List CryptoTimeSeriesData)
    (h : ∀ kv ∈ top, strStartsWith kv.1 "Time Series" = false) :
    cryptoScan label acc top = .ok (label, acc) := by
  induction top generalizing acc with
  | nil => rfl
  | cons kv rest ih =>
    have hk := h kv (List.mem_cons_self kv rest)
    obtain ⟨k, v⟩ := kv
    rw [cryptoScan_cons]
    simp only [hk, Bool.false_eq_true, if_false]
    exact ih acc (fun kv2 hm => h kv2 (List.mem_cons_of_mem _ hm))

theorem intradayScan_acc_mem {top : JObj} {acc es : List OHLCV}
    (h : intradayScan acc top = .ok es) : ∀ e ∈ acc, e ∈ es := by
  induction top generalizing acc with
  | nil =>
    intro e he
    exact (Outcome.ok.inj h) ▸ he
  | cons kv rest ih =>
    obtain ⟨k, v⟩ := kv
    intro e he
    rw [intradayScan_cons] at h
    by_cases hk : strStartsWith k "Time Series" = true
    · simp only [hk, if_true] at h
      cases v with
      | obj o =>
        obtain ⟨es1, h1, h2⟩ := Outcome.bind_eq_ok h
        exact ih h2 e (List.mem_append_left _ he)
      | null => exact absurd h (by simp)
      | bool b => exact absurd h (by simp)
      | num q => exact absurd h (by simp)
      | str s => exact absurd h (by simp)
      | arr xs => exact absurd h (by simp)
    · simp only [hk, Bool.false_eq_true, if_false] at h
      exact ih h e he

theorem cryptoScan_acc_mem {top : JObj} {label : String} {acc : List CryptoTimeSeriesData}
    {p : String × List CryptoTimeSeriesData}
    (h : cryptoScan label acc top = .ok p) : ∀ e ∈ acc, e ∈ p.2 := by
  induction top generalizing label acc with
  | nil =>
    intro e he
    have := Outcome.ok.inj h
    rw [← this]
    exact he
  | cons kv rest ih =>
    obtain ⟨k, v⟩ := kv
    intro e he
    rw [cryptoScan_cons] at h
    by_cases hk : strStartsWith k "Time Series" = true
    · simp only [hk, if_true] at h
      cases v with
      | obj o =>
        obtain ⟨es1, h1, h2⟩ := Outcome.bind_eq_ok h
        exact ih h2 e (List.mem_append_left _ he)
      | null => exact absurd h (by simp)
      | bool b => exact absurd h (by simp)
      | num q => exact absurd h (by simp)
      | str s => exact absurd h (by simp)
      | arr xs => exact absurd h (by simp)
    · simp only [hk, Bool.false_eq_true, if_false] at h
      exact ih h e he

theorem datedEntries_cons (k : String) (b : OHLCV) (rest : List (String × OHLCV)) :
    datedEntries ((k, b) :: rest) =
      match parseDate k with
      | none => .err ("parsing time " ++ k)
      | some t =>
        Outcome.bind (datedEntries rest) fun es => .ok ({ b with Timestamp := t } :: es) := rfl

theorem decodeRawSeries_cons (k : String) (v : Json) (rest : JObj) :
    decodeRawSeries ((k, v) :: rest) =
      Outcome.bind (decodeOHLCV v) fun b =>
      Outcome.bind (decodeRawSeries rest) fun m => .ok ((k, b) :: m) := rfl

theorem decodeRawSeries_keys {so : JObj} {raw : List (String × OHLCV)}
    (h : decodeRawSeries so = .ok raw) : raw.map Prod.fst = so.map Prod.fst := by
  induction so generalizing raw with
  | nil =>
    have := Outcome.ok.inj h
    rw [← this]
    rfl
  | cons kv rest ih =>
    obtain ⟨k, v⟩ := kv
    rw [decodeRawSeries_cons] at h
    obtain ⟨b, h1, h⟩ := Outcome.bind_eq_ok h
    obtain ⟨m, h2, h⟩ := Outcome.bind_eq_ok h
    have := Outcome.ok.inj h
    rw [← this]
    simp only [List.map_cons]
    rw [ih h2]

theorem datedEntries_mem_ts {raw : List (String × OHLCV)} {es : List OHLCV}
    (h : datedEntries raw = .ok es) :
    ∀ e ∈ es, ∃ k ∈ raw.map Prod.fst, parseDate k = some e.Timestamp := by
  induction raw generalizing es with
  | nil =>
    have := Outcome.ok.inj h
    rw [← this]
    intro e he
    exact absurd he (List.not_mem_nil e)
  | cons kb rest ih =>
    obtain ⟨k, b⟩ := kb
    rw [datedEntries_cons] at h
    cases hp : parseDate k with
    | none => rw [hp] at h; exact absurd h (by simp)
    | some t =>
      rw [hp] at h
      obtain ⟨es2, h1, h⟩ := Outcome.bind_eq_ok h
      have := Outcome.ok.inj h
      rw [← this]
      intro e he
      rcases List.mem_cons.mp he with rfl | he2
      · exact ⟨k, List.mem_cons_self _ _, hp⟩
      · obtain ⟨k2, hk2, hpk2⟩ := ih h1 e he2
        exact ⟨k2, List.mem_cons_of_mem _ hk2, hpk2⟩

theorem datedEntries_nodup_ts {raw : List (String × OHLCV)} {es : List OHLCV}
    (h : datedEntries raw = .ok es) (hn : (raw.map Prod.fst).Nodup) :
    (es.map (fun e => e.Timestamp)).Nodup := by
  induction raw generalizing es with
  | nil =>
    have := Outcome.ok.inj h
    rw [← this]
    exact List.nodup_nil
  | cons kb rest ih =>
    obtain ⟨k, b⟩ := kb
    rw [datedEntries_cons] at h
    cases hp : parseDate k with
    | none => rw [hp] at h; exact absurd h (by simp)
    | some t =>
      rw [hp] at h
      obtain ⟨es2, h1, h⟩ := Outcome.bind_eq_ok h
      have := Outcome.ok.inj h
      rw [← this]
      simp only [List.map_cons, List.nodup_cons]
      simp only [List.map_cons, List.nodup_cons] at hn
      refine ⟨?_, ih h1 hn.2⟩
      intro hmem
      obtain ⟨e2, he2, hts⟩ := List.mem_map.mp hmem
      obtain ⟨k2, hk2, hpk2⟩ := datedEntries_mem_ts h1 e2 he2
      have hkt : parseDate k2 = some t := by rw [hpk2, hts]
      have : k2 = k := parseDate_inj hkt hp
      exact hn.1 (this ▸ hk2)

theorem metaFieldUpd_skip {k : String} (acc : TimeSeriesMetaData) (v : Json)
    (h : k ∉ tsIndicatorMetaKeys) : metaFieldUpd acc k v = .ok acc := by
  simp only [tsIndicatorMetaKeys, List.mem_cons, List.not_mem_nil, or_false, not_or] at h
  obtain ⟨h1, h2, h3, h4, h5, h6, h7⟩ := h
  simp [metaFieldUpd, h1, h2, h3, h4, h5, h6, h7]

theorem cryptoMetaFieldUpd_skip {k : String} (acc : CryptoMetaData) (v : Json)
    (h : k ∉ cryptoMetaKeys) : cryptoMetaFieldUpd acc k v = .ok acc := by
  simp only [cryptoMetaKeys, List.mem_cons, List.not_mem_nil, or_false, not_or] at h
  obtain ⟨h1, h2, h3, h4, h5, h6, h7⟩ := h
  simp [cryptoMetaFieldUpd, h1, h2, h3, h4, h5, h6, h7]

theorem metaFold_cons (acc : TimeSeriesMetaData) (k : String) (v : Json) (rest : JObj) :
    metaFold acc ((k, v) :: rest) =
      Outcome.bind (metaFieldUpd acc k v) fun a => metaFold a rest := rfl

theorem cryptoMetaFold_cons (acc : CryptoMetaData) (k : String) (v : Json) (rest : JObj) :
    cryptoMetaFold acc ((k, v) :: rest) =
      Outcome.bind (cryptoMetaFieldUpd acc k v) fun a => cryptoMetaFold a rest := rfl

theorem metaFold_skip {k : String} (v : Json) (h : k ∉ tsIndicatorMetaKeys)
    (pre post : JObj) (acc : TimeSeriesMetaData) :
    metaFold acc (pre ++ (k, v) :: post) = metaFold acc (pre ++ post) := by
  induction pre generalizing acc with
  | nil =>
    simp only [List.nil_append, metaFold_cons, metaFieldUpd_skip acc v h, Outcome.bind_ok]
  | cons kv rest ih =>
    obtain ⟨k0, v0⟩ := kv
    simp only [List.cons_append, metaFold_cons]
    cases hu : metaFieldUpd acc k0 v0 with
    | ok a => simp only [Outcome.bind_ok]; exact ih a
    | err m => simp
    | panic m => simp

theorem cryptoMetaFold_skip {k : String} (v : Json) (h : k ∉ cryptoMetaKeys)
    (pre post : JObj) (acc : CryptoMetaData) :
    cryptoMetaFold acc (pre ++ (k, v) :: post) = cryptoMetaFold acc (pre ++ post) := by
  induction pre generalizing acc with
  | nil =>
    simp only [List.nil_append, cryptoMetaFold_cons, cryptoMetaFieldUpd_skip acc v h,
      Outcome.bind_ok]
  | cons kv rest ih =>
    obtain ⟨k0, v0⟩ := kv
    simp only [List.cons_append, cryptoMetaFold_cons]
    cases hu : cryptoMetaFieldUpd acc k0 v0 with
    | ok a => simp only [Outcome.bind_ok]; exact ih a
    | err m => simp
    | panic m => simp

theorem assertStringV_panic {v : Json} (h : ∀ s, v ≠ Json.str s) :
    assertStringV v = .panic "interface conversion" := by
  cases v with
  | str s => exact absurd rfl (h s)
  | null => rfl
  | bool b => rfl
  | num q => rfl
  | arr xs => rfl
  | obj o => rfl

theorem assertString_cases (o : Option Json) :
    (∃ s, o = some (Json.str s) ∧ assertString o = .ok s) ∨
      assertString o = .panic "interface conversion" := by
  cases o with
  | none => exact Or.inr rfl
  | some v =>
    cases v with
    | str s => exact Or.inl ⟨s, rfl, rfl⟩
    | null => exact Or.inr rfl
    | bool b => exact Or.inr rfl
    | num q => exact Or.inr rfl
    | arr xs => exact Or.inr rfl
    | obj o2 => exact Or.inr rfl

theorem intradayMetaFields_panic {m : JObj} (recv : TimeSeriesMetaData)
    (h : ∃ k ∈ intradayMetaKeys, ∀ s, jlookup m k ≠ some (Json.str s)) :
    intradayMetaFields recv m = .panic "interface conversion" := by
  obtain ⟨k, hk, hbad⟩ := h
  rcases assertString_cases (jlookup m "1. Information") with ⟨s1, he1, ha1⟩ | hp1
  rotate_left
  · simp [intradayMetaFields, hp1]
  rcases assertString_cases (jlookup m "2. Symbol") with ⟨s2, he2, ha2⟩ | hp2
  rotate_left
  · simp [intradayMetaFields, ha1, hp2]
  rcases assertString_cases (jlookup m "3. Last Refreshed") with ⟨s3, he3, ha3⟩ | hp3
  rotate_left
  · simp [intradayMetaFields, ha1, ha2, hp3]
  rcases assertString_cases (jlookup m "4. Interval") with ⟨s4, he4, ha4⟩ | hp4
  rotate_left
  · simp [intradayMetaFields, ha1, ha2, ha3, hp4]
  rcases assertString_cases (jlookup m "5. Output Size") with ⟨s5, he5, ha5⟩ | hp5
  rotate_left
  · simp [intradayMetaFields, ha1, ha2, ha3, ha4, hp5]
  rcases assertString_cases (jlookup m "6. Time Zone") with ⟨s6, he6, ha6⟩ | hp6
  rotate_left
  · simp [intradayMetaFields, ha1, ha2, ha3, ha4, ha5, hp6]
  exfalso
  fin_cases hk
  · exact hbad s1 he1
  · exact hbad s2 he2
  · exact hbad s3 he3
  · exact hbad s4 he4
  · exact hbad s5 he5
  · exact hbad s6 he6

theorem parseQuoteFloat_some {s : String} {v : Rat} (fn : String)
    (h : parseFloatQ s = some v) : parseQuoteFloat fn s = .ok v := by
  simp [parseQuoteFloat, h]

theorem parseQuoteFloat_none {s : String} (fn : String)
    (h : parseFloatQ s = none) : parseQuoteFloat fn s = .err ("error parsing " ++ fn) := by
  simp [parseQuoteFloat, h]

/-- Claim C1, counterexample: an indicator payload that carries only the
key Technical Analysis: EMA while SMA is requested (scenario C of the
spec) decodes successfully to an empty response instead of failing, so
the claim that a missing required top-level key always yields an error is
false on the code. -/
theorem C1_counterexample :
    UnmarshalIndicatorJSON {} (Json.obj [("Technical Analysis: EMA", Json.obj [])]) "SMA" =
      .ok {} := rfl

/-- Claim C1, amended: when the payload lacks the required top-level keys
(no Meta Data and no Time Series prefixed key for the intraday, daily and
crypto decoders; no Technical Analysis block for the indicator decoder),
every decoder returns success with a zero-value record and an empty
series rather than an error. -/
theorem C1_missing_key_amended :
    (∀ top : JObj, jlookup top "Meta Data" = none →
      (∀ kv ∈ top, strStartsWith kv.1 "Time Series" = false) →
      TimeSeriesIntraday.UnmarshalJSON {} (Json.obj top) = .ok {}) ∧
    (∀ top : JObj, jlookup top "Meta Data" = none →
      jlookup top "Time Series (Daily)" = none →
      TimeSeriesDaily.UnmarshalJSON {} (Json.obj top) = .ok {}) ∧
    (∀ (top : JObj) (name : String), jlookup top "Meta Data" = none →
      jlookup top ("Technical Analysis: " ++ name) = none →
      UnmarshalIndicatorJSON {} (Json.obj top) name = .ok {}) ∧
    (∀ top : JObj, jlookup top "Meta Data" = none →
      (∀ kv ∈ top, strStartsWith kv.1 "Time Series" = false) →
      UnmarshalCryptoJSON {} (Json.obj top) = .ok {}) := by
  refine ⟨?_, ?_, ?_, ?_⟩
  · intro top h1 h2
    simp only [TimeSeriesIntraday.UnmarshalJSON, intradayMeta, h1, Outcome.bind_ok,
      intradayScan_no_match _ h2]
    rfl
  · intro top h1 h2
    simp only [TimeSeriesDaily.UnmarshalJSON, decodeMetaTags, h1, seriesObjAt, h2,
      Outcome.bind_ok]
    rfl
  · intro top name h1 h2
    simp only [UnmarshalIndicatorJSON, indicatorMeta, h1, h2, Outcome.bind_ok]
    rfl
  · intro top h1 h2
    simp only [UnmarshalCryptoJSON, cryptoMeta, h1, Outcome.bind_ok,
      cryptoScan_no_match _ _ h2]
    rfl

/-- Claim C1, witness: a payload holding only an unrelated key decodes
successfully to the zero-value record under all four decoders. -/
theorem C1_missing_key_amended_witness :
    TimeSeriesIntraday.UnmarshalJSON {} (Json.obj [("foo", Json.str "bar")]) = .ok {} ∧
    TimeSeriesDaily.UnmarshalJSON {} (Json.obj [("foo", Json.str "bar")]) = .ok {} ∧
    UnmarshalIndicatorJSON {} (Json.obj [("foo", Json.str "bar")]) "SMA" = .ok {} ∧
    UnmarshalCryptoJSON {} (Json.obj [("foo", Json.str "bar")]) = .ok {} :=
  ⟨C1_missing_key_amended.1 _ rfl (by decide),
   C1_missing_key_amended.2.1 _ rfl rfl,
   C1_missing_key_amended.2.2.1 _ "SMA" rfl rfl,
   C1_missing_key_amended.2.2.2 _ rfl (by decide)⟩

/-- Claim C2: evaluating UnmarshalCryptoJSON on a dated entry whose open
sub-field holds the non-numeric string N/A shows the decode SUCCEEDING
with Open defaulted to zero, because the source discards every ParseFloat
error; the claim (and the spec contract) says it must return an error, so
the code contradicts the documented intent. -/
theorem C2_crypto_zero_defaults :
    UnmarshalCryptoJSON {} cryptoBadOpenPayload = .ok
      { MetaData := {},
        TimeSeries := [{ Timestamp := encodeTS 2023 9 8 0 0 0, Open := 0, High := 2,
                         Low := 1, Close := mkRat 3 2, Volume := 10, MarketCap := 20 }],
        IntervalLabel := "Time Series (Digital Currency Daily)" } := rfl

/-- Claim C3: every sequence produced by a successful time-series,
indicator or crypto decode is non-decreasing in timestamp on adjacent
entries. -/
theorem C3_decoded_sequences_sorted :
    (∀ (recv : TimeSeriesDaily) (j : Json) (r : TimeSeriesDaily),
      TimeSeriesDaily.UnmarshalJSON recv j = .ok r →
      List.Chain' (fun a b => a.Timestamp ≤ b.Timestamp) r.TimeSeries) ∧
    (∀ (recv : IndicatorResponse) (j : Json) (name : String) (r : IndicatorResponse),
      UnmarshalIndicatorJSON recv j name = .ok r →
      List.Chain' (fun a b => a.Timestamp ≤ b.Timestamp) r.IndicatorValues) ∧
    (∀ (recv : CryptoSeriesResponse) (j : Json) (r : CryptoSeriesResponse),
      UnmarshalCryptoJSON recv j = .ok r →
      List.Chain' (fun a b => a.Timestamp ≤ b.Timestamp) r.TimeSeries) := by
  refine ⟨?_, ?_, ?_⟩
  · intro recv j r h
    obtain ⟨top, md, so, raw, es, hj, h1, h2, h3, h4, hr⟩ := daily_ok_inv h
    rw [hr]
    exact (sortByTs_sorted (fun e => e.Timestamp) es).chain'
  · intro recv j name r h
    obtain ⟨top, md, hj, h1, hcase⟩ := indicator_ok_inv h
    rcases hcase with ⟨tsData, es, hk, h2, hr⟩ | hr
    · rw [hr]
      exact (sortByTs_sorted (fun e : IndicatorValue => e.Timestamp) _).chain'
    · rw [hr]
      exact (sortByTs_sorted (fun e : IndicatorValue => e.Timestamp) _).chain'
  · intro recv j r h
    obtain ⟨top, md, p, hj, h1, h2, hr⟩ := crypto_ok_inv h
    rw [hr]
    exact (sortByTs_sorted (fun e : CryptoTimeSeriesData => e.Timestamp) _).chain'

/-- Claim C3, witness: the three parts applied to concrete successful
decodes. -/
theorem C3_decoded_sequences_sorted_witness :
    List.Chain' (fun a b => a.Timestamp ≤ b.Timestamp)
      ([{ Timestamp := encodeTS 2023 9 8 0 0 0, Open := 330, High := 335, Low := 329,
          Close := 334, Volume := 1000000 }] : List OHLCV) ∧
    List.Chain' (fun a b => a.Timestamp ≤ b.Timestamp)
      ([{ Timestamp := encodeTS 2023 9 8 10 30 0, Values := [("SMA", mkRat 6603 20)] }] :
        List IndicatorValue) ∧
    List.Chain' (fun a b => a.Timestamp ≤ b.Timestamp)
      ([{ Timestamp := encodeTS 2023 9 8 0 0 0, Open := 0, High := 2, Low := 1,
          Close := mkRat 3 2, Volume := 10, MarketCap := 20 }] :
        List CryptoTimeSeriesData) :=
  ⟨C3_decoded_sequences_sorted.1 {} payloadA
      { MetaData := { Information := "Daily Prices", Symbol := "MSFT",
                      LastRefreshed := "2023-09-08", Interval := "Daily",
                      OutputSize := "Compact", TimeZone := "US/Eastern" },
        TimeSeries := [{ Timestamp := encodeTS 2023 9 8 0 0 0, Open := 330, High := 335,
                         Low := 329, Close := 334, Volume := 1000000 }] } rfl,
   C3_decoded_sequences_sorted.2.1 {} (Json.obj [("Technical Analysis: SMA", Json.obj [
        ("2023-09-08 10:30", Json.obj [("SMA", Json.str "330.15")])])]) "SMA"
      { MetaData := {},
        IndicatorValues := [{ Timestamp := encodeTS 2023 9 8 10 30 0,
                              Values := [("SMA", mkRat 6603 20)] }] } rfl,
   C3_decoded_sequences_sorted.2.2 {} cryptoBadOpenPayload
      { MetaData := {},
        TimeSeries := [{ Timestamp := encodeTS 2023 9 8 0 0 0, Open := 0, High := 2,
                         Low := 1, Close := mkRat 3 2, Volume := 10, MarketCap := 20 }],
        IntervalLabel := "Time Series (Digital Currency Daily)" } rfl⟩

/-- Claim C4, counterexample: decoding an indicator payload whose Meta
Data block holds a number under the recognised key 1: Symbol makes the
whole decode end in a runtime panic (unchecked type assertion), not in a
type error returned to the caller as the claim states. -/
theorem C4_counterexample :
    UnmarshalIndicatorJSON {} (Json.obj [("Meta Data", Json.obj [("1: Symbol", Json.num 3)])])
      "SMA" = .panic "interface conversion" := rfl

/-- Claim C4, amended: the metadata extractors ignore unrecognized keys
silently, and a recognised key holding a wrong-typed value makes the
extraction panic (runtime type-assertion failure) instead of returning an
error value. -/
theorem C4_metadata_extractors_amended :
    (∀ (pre post : JObj) (k : String) (v : Json), k ∉ tsIndicatorMetaKeys →
      extractMetaData (pre ++ (k, v) :: post) = extractMetaData (pre ++ post)) ∧
    (∀ (pre post : JObj) (k : String) (v : Json), k ∉ cryptoMetaKeys →
      extractCryptoMetaData (pre ++ (k, v) :: post) = extractCryptoMetaData (pre ++ post)) ∧
    (∀ (v : Json) (m : JObj), (∀ s, v ≠ Json.str s) →
      extractMetaData (("1: Symbol", v) :: m) = .panic "interface conversion") ∧
    (∀ (v : Json) (m : JObj), (∀ s, v ≠ Json.str s) →
      extractCryptoMetaData (("1. Information", v) :: m) = .panic "interface conversion") := by
  refine ⟨?_, ?_, ?_, ?_⟩
  · intro pre post k v h
    exact metaFold_skip v h pre post {}
  · intro pre post k v h
    exact cryptoMetaFold_skip v h pre post {}
  · intro v m h
    show metaFold {} (("1: Symbol", v) :: m) = .panic "interface conversion"
    rw [metaFold_cons]
    have : metaFieldUpd {} "1: Symbol" v = .panic "interface conversion" := by
      simp [metaFieldUpd, assertStringV_panic h]
    rw [this]
    rfl
  · intro v m h
    show cryptoMetaFold {} (("1. Information", v) :: m) = .panic "interface conversion"
    rw [cryptoMetaFold_cons]
    have : cryptoMetaFieldUpd {} "1. Information" v = .panic "interface conversion" := by
      simp [cryptoMetaFieldUpd, assertStringV_panic h]
    rw [this]
    rfl

/-- Claim C4, witness: the four parts applied to concrete metadata
blocks. -/
theorem C4_metadata_extractors_amended_witness :
    extractMetaData [("9: Bogus", Json.str "x")] = extractMetaData [] ∧
    extractCryptoMetaData [("9. Bogus", Json.str "x")] = extractCryptoMetaData [] ∧
    extractMetaData [("1: Symbol", Json.num 3)] = .panic "interface conversion" ∧
    extractCryptoMetaData [("1. Information", Json.bool true)] = .panic "interface conversion" :=
  ⟨C4_metadata_extractors_amended.1 [] [] "9: Bogus" (Json.str "x") (by decide),
   C4_metadata_extractors_amended.2.1 [] [] "9. Bogus" (Json.str "x") (by decide),
   C4_metadata_extractors_amended.2.2.1 (Json.num 3) [] (fun s h => Json.noConfusion h),
   C4_metadata_extractors_amended.2.2.2 (Json.bool true) [] (fun s h => Json.noConfusion h)⟩

/-- Claim C5: the final sort of a time-series decode never has to break a
tie.  For the daily decoder (which uses the unstable sort.Slice) a
successful decode of a series object with duplicate-free keys yields
strictly increasing timestamps, because distinct date keys parse to
distinct timestamps, so entries with equal timestamps cannot exist and
tie order is vacuously preserved; for the intraday decoder (which uses
sort.SliceStable) the result is sorted and, restricted to any single
timestamp, keeps exactly the order in which entries were appended from
the input. -/
theorem C5_sort_tie_behaviour :
    (∀ (recv : TimeSeriesDaily) (top : JObj) (so : JObj) (r : TimeSeriesDaily),
      jlookup top "Time Series (Daily)" = some (Json.obj so) →
      (so.map Prod.fst).Nodup →
      TimeSeriesDaily.UnmarshalJSON recv (Json.obj top) = .ok r →
      List.Chain' (fun a b => a.Timestamp < b.Timestamp) r.TimeSeries) ∧
    (∀ (recv : TimeSeriesIntraday) (top : JObj) (es : List OHLCV) (r : TimeSeriesIntraday),
      intradayScan recv.TimeSeries top = .ok es →
      TimeSeriesIntraday.UnmarshalJSON recv (Json.obj top) = .ok r →
      List.Chain' (fun a b => a.Timestamp ≤ b.Timestamp) r.TimeSeries ∧
        ∀ t, r.TimeSeries.filter (fun e => e.Timestamp == t) =
          es.filter (fun e => e.Timestamp == t)) := by
  constructor
  · intro recv top so r hso hnd h
    obtain ⟨top2, md, so2, raw, es, hj, h1, h2, h3, h4, hr⟩ := daily_ok_inv h
    have htop := Json.obj.inj hj
    rw [← htop] at h2
    have hso2 : so2 = so := by
      have : seriesObjAt top "Time Series (Daily)" = .ok so := by
        simp [seriesObjAt, hso]
      exact Outcome.ok.inj (h2.symm.trans this)
    subst hso2
    have hraw : (raw.map Prod.fst).Nodup := by
      rw [decodeRawSeries_keys h3]
      exact hnd
    have hts : (es.map (fun e => e.Timestamp)).Nodup := datedEntries_nodup_ts h4 hraw
    have hperm : ((sortByTs (fun e => e.Timestamp) es).map (fun e => e.Timestamp)).Perm
        (es.map (fun e => e.Timestamp)) :=
      (sortByTs_perm (fun e => e.Timestamp) es).map _
    have hts2 : ((sortByTs (fun e => e.Timestamp) es).map (fun e => e.Timestamp)).Nodup :=
      hperm.nodup_iff.mpr hts
    rw [hr]
    exact (pairwise_lt_of_sorted_nodup (fun e : OHLCV => e.Timestamp)
      (sortByTs_sorted (fun e => e.Timestamp) es) hts2).chain'
  · intro recv top es r hscan h
    obtain ⟨top2, md, es2, hj, h1, h2, hr⟩ := intraday_ok_inv h
    have htop := Json.obj.inj hj
    rw [← htop] at h2
    have hes : es2 = es := Outcome.ok.inj (h2.symm.trans hscan)
    subst hes
    rw [hr]
    refine ⟨(sortByTs_sorted (fun e => e.Timestamp) es2).chain', ?_⟩
    intro t
    exact sortByTs_filter (fun e => e.Timestamp) t es2

/-- Claim C5, witness: scenario B (two dates arriving descending) decodes
to a strictly increasing sequence, and an intraday decode with two
out-of-order timestamps keeps, at each fixed timestamp, the appended
order. -/
theorem C5_sort_tie_behaviour_witness :
    List.Chain' (fun a b => a.Timestamp < b.Timestamp)
      ([{ Timestamp := encodeTS 2023 9 7 0 0 0, Open := 1 },
        { Timestamp := encodeTS 2023 9 8 0 0 0, Open := 2 }] : List OHLCV) ∧
    List.filter (fun e => e.Timestamp == encodeTS 2023 9 8 10 30 0)
        ([{ Timestamp := encodeTS 2023 9 8 9 0 0, Open := 1 },
          { Timestamp := encodeTS 2023 9 8 10 30 0, Open := 2 }] : List OHLCV) =
      List.filter (fun e => e.Timestamp == encodeTS 2023 9 8 10 30 0)
        ([{ Timestamp := encodeTS 2023 9 8 10 30 0, Open := 2 },
          { Timestamp := encodeTS 2023 9 8 9 0 0, Open := 1 }] : List OHLCV) :=
  ⟨C5_sort_tie_behaviour.1 {} dailyTwoDatesObj
      [("2023-09-08", Json.obj [("1. open", Json.str "2")]),
       ("2023-09-07", Json.obj [("1. open", Json.str "1")])]
      { MetaData := {},
        TimeSeries := [{ Timestamp := encodeTS 2023 9 7 0 0 0, Open := 1 },
                       { Timestamp := encodeTS 2023 9 8 0 0 0, Open := 2 }] }
      rfl (by decide) rfl,
   (C5_sort_tie_behaviour.2 {} intradayTwoObj
      [{ Timestamp := encodeTS 2023 9 8 10 30 0, Open := 2 },
       { Timestamp := encodeTS 2023 9 8 9 0 0, Open := 1 }]
      { MetaData := {},
        TimeSeries := [{ Timestamp := encodeTS 2023 9 8 9 0 0, Open := 1 },
                       { Timestamp := encodeTS 2023 9 8 10 30 0, Open := 2 }] }
      rfl rfl).2 (encodeTS 2023 9 8 10 30 0)⟩

/-- Claim C6, counterexample: an intraday decode whose receiver already
holds one entry and whose payload holds no series at all succeeds with
the stale entry still present in the result, so the sequence is not
rebuilt fully from the input bytes. -/
theorem C6_counterexample :
    TimeSeriesIntraday.UnmarshalJSON
      { MetaData := {},
        TimeSeries := [{ Timestamp := 5, Open := 1, High := 1, Low := 1, Close := 1,
                         Volume := 1 }] }
      (Json.obj []) =
      .ok { MetaData := {},
            TimeSeries := [{ Timestamp := 5, Open := 1, High := 1, Low := 1, Close := 1,
                             Volume := 1 }] } := rfl

/-- Claim C6, amended: the daily decoder rebuilds its slice from scratch
(the decoded series is independent of the receiver), but the intraday,
indicator and crypto decoders append to the receiver slice, so every
entry present before the call is still a member of the decoded result. -/
theorem C6_rebuild_versus_append :
    (∀ (j : Json) (a b ra rb : TimeSeriesDaily),
      TimeSeriesDaily.UnmarshalJSON a j = .ok ra →
      TimeSeriesDaily.UnmarshalJSON b j = .ok rb →
      ra.TimeSeries = rb.TimeSeries) ∧
    (∀ (recv r : TimeSeriesIntraday) (j : Json),
      TimeSeriesIntraday.UnmarshalJSON recv j = .ok r →
      ∀ e ∈ recv.TimeSeries, e ∈ r.TimeSeries) ∧
    (∀ (recv r : IndicatorResponse) (j : Json) (name : String),
      UnmarshalIndicatorJSON recv j name = .ok r →
      ∀ e ∈ recv.IndicatorValues, e ∈ r.IndicatorValues) ∧
    (∀ (recv r : CryptoSeriesResponse) (j : Json),
      UnmarshalCryptoJSON recv j = .ok r →
      ∀ e ∈ recv.TimeSeries, e ∈ r.TimeSeries) := by
  refine ⟨?_, ?_, ?_, ?_⟩
  · intro j a b ra rb ha hb
    obtain ⟨ta, mda, soa, rawa, esa, hja, ha1, ha2, ha3, ha4, hra⟩ := daily_ok_inv ha
    obtain ⟨tb, mdb, sob, rawb, esb, hjb, hb1, hb2, hb3, hb4, hrb⟩ := daily_ok_inv hb
    subst hja
    have htb := Json.obj.inj hjb
    rw [← htb] at hb2
    have hso : soa = sob := Outcome.ok.inj (ha2.symm.trans hb2)
    subst hso
    have hraw : rawa = rawb := Outcome.ok.inj (ha3.symm.trans hb3)
    subst hraw
    have hes : esa = esb := Outcome.ok.inj (ha4.symm.trans hb4)
    subst hes
    rw [hra, hrb]
  · intro recv r j h e he
    obtain ⟨top, md, es, hj, h1, h2, hr⟩ := intraday_ok_inv h
    have hmem : e ∈ es := intradayScan_acc_mem h2 e he
    rw [hr]
    exact ((sortByTs_perm (fun x => x.Timestamp) es).mem_iff).mpr hmem
  · intro recv r j name h e he
    obtain ⟨top, md, hj, h1, hcase⟩ := indicator_ok_inv h
    rcases hcase with ⟨tsData, es, hk, h2, hr⟩ | hr
    · rw [hr]
      exact ((sortByTs_perm (fun x => x.Timestamp) _).mem_iff).mpr
        (List.mem_append_left _ he)
    · rw [hr]
      exact ((sortByTs_perm (fun x => x.Timestamp) _).mem_iff).mpr he
  · intro recv r j h e he
    obtain ⟨top, md, p, hj, h1, h2, hr⟩ := crypto_ok_inv h
    have hmem : e ∈ p.2 := cryptoScan_acc_mem h2 e he
    rw [hr]
    exact ((sortByTs_perm (fun x => x.Timestamp) p.2).mem_iff).mpr hmem

/-- Claim C6, witness: the append part applied to a receiver holding one
stale entry, and the rebuild part applied to two different receivers
decoding the concrete daily payload. -/
theorem C6_rebuild_versus_append_witness :
    ({ Timestamp := 5, Open := 1, High := 1, Low := 1, Close := 1, Volume := 1 } : OHLCV) ∈
      ([{ Timestamp := 5, Open := 1, High := 1, Low := 1, Close := 1, Volume := 1 }] :
        List OHLCV) ∧
    ([{ Timestamp := encodeTS 2023 9 8 0 0 0, Open := 330, High := 335, Low := 329,
        Close := 334, Volume := 1000000 }] : List OHLCV) =
      [{ Timestamp := encodeTS 2023 9 8 0 0 0, Open := 330, High := 335, Low := 329,
         Close := 334, Volume := 1000000 }] :=
  ⟨C6_rebuild_versus_append.2.1
      { MetaData := {},
        TimeSeries := [{ Timestamp := 5, Open := 1, High := 1, Low := 1, Close := 1,
                         Volume := 1 }] }
      { MetaData := {},
        TimeSeries := [{ Timestamp := 5, Open := 1, High := 1, Low := 1, Close := 1,
                         Volume := 1 }] }
      (Json.obj []) rfl _ (List.mem_cons_self _ _),
   C6_rebuild_versus_append.1 payloadA {}
      { MetaData := {}, TimeSeries := [{ Timestamp := 7, Open := 9 }] }
      { MetaData := { Information := "Daily Prices", Symbol := "MSFT",
                      LastRefreshed := "2023-09-08", Interval := "Daily",
                      OutputSize := "Compact", TimeZone := "US/Eastern" },
        TimeSeries := [{ Timestamp := encodeTS 2023 9 8 0 0 0, Open := 330, High := 335,
                         Low := 329, Close := 334, Volume := 1000000 }] }
      { MetaData := { Information := "Daily Prices", Symbol := "MSFT",
                      LastRefreshed := "2023-09-08", Interval := "Daily",
                      OutputSize := "Compact", TimeZone := "US/Eastern" },
        TimeSeries := [{ Timestamp := encodeTS 2023 9 8 0 0 0, Open := 330, High := 335,
                         Low := 329, Close := 334, Volume := 1000000 }] }
      rfl rfl⟩

/-- Claim C7: in the Global Quote decoder, when one of the eight parsed
fields (open, high, low, price, volume, latest trading day, previous
close, change) is the first malformed field, the decode returns an error
naming exactly that field, and on success the two literal fields (symbol,
change percent) are kept as the unparsed raw strings. -/
theorem C7_quote_field_errors :
    ∀ (j : Json) (m : List (String × String)) (q0 : Quote), getGlobalQuote j = .ok m →
      (parseFloatQ (rqGet m "02. open") = none →
        Quote.UnmarshalJSON q0 j = .err "error parsing open") ∧
      (parseFloatQ (rqGet m "02. open") ≠ none →
        parseFloatQ (rqGet m "03. high") = none →
        Quote.UnmarshalJSON q0 j = .err "error parsing high") ∧
      (parseFloatQ (rqGet m "02. open") ≠ none →
        parseFloatQ (rqGet m "03. high") ≠ none →
        parseFloatQ (rqGet m "04. low") = none →
        Quote.UnmarshalJSON q0 j = .err "error parsing low") ∧
      (parseFloatQ (rqGet m "02. open") ≠ none →
        parseFloatQ (rqGet m "03. high") ≠ none →
        parseFloatQ (rqGet m "04. low") ≠ none →
        parseFloatQ (rqGet m "05. price") = none →
        Quote.UnmarshalJSON q0 j = .err "error parsing price") ∧
      (parseFloatQ (rqGet m "02. open") ≠ none →
        parseFloatQ (rqGet m "03. high") ≠ none →
        parseFloatQ (rqGet m "04. low") ≠ none →
        parseFloatQ (rqGet m "05. price") ≠ none →
        parseIntGo (rqGet m "06. volume") = none →
        Quote.UnmarshalJSON q0 j = .err "error parsing volume") ∧
      (parseFloatQ (rqGet m "02. open") ≠ none →
        parseFloatQ (rqGet m "03. high") ≠ none →
        parseFloatQ (rqGet m "04. low") ≠ none →
        parseFloatQ (rqGet m "05. price") ≠ none →
        parseIntGo (rqGet m "06. volume") ≠ none →
        parseDate (rqGet m "07. latest trading day") = none →
        Quote.UnmarshalJSON q0 j = .err "error parsing latest trading day") ∧
      (parseFloatQ (rqGet m "02. open") ≠ none →
        parseFloatQ (rqGet m "03. high") ≠ none →
        parseFloatQ (rqGet m "04. low") ≠ none →
        parseFloatQ (rqGet m "05. price") ≠ none →
        parseIntGo (rqGet m "06. volume") ≠ none →
        parseDate (rqGet m "07. latest trading day") ≠ none →
        parseFloatQ (rqGet m "08. previous close") = none →
        Quote.UnmarshalJSON q0 j = .err "error parsing previous close") ∧
      (parseFloatQ (rqGet m "02. open") ≠ none →
        parseFloatQ (rqGet m "03. high") ≠ none →
        parseFloatQ (rqGet m "04. low") ≠ none →
        parseFloatQ (rqGet m "05. price") ≠ none →
        parseIntGo (rqGet m "06. volume") ≠ none →
        parseDate (rqGet m "07. latest trading day") ≠ none →
        parseFloatQ (rqGet m "08. previous close") ≠ none →
        parseFloatQ (rqGet m "09. change") = none →
        Quote.UnmarshalJSON q0 j = .err "error parsing change") ∧
      (∀ q, Quote.UnmarshalJSON q0 j = .ok q →
        q.Symbol = rqGet m "01. symbol" ∧ q.ChangePercent = rqGet m "10. change percent") := by
  intro j m q0 hg
  have hQ : Quote.UnmarshalJSON q0 j = quoteFromMap q0 m := by
    simp [Quote.UnmarshalJSON, hg]
  rw [hQ]
  refine ⟨?_, ?_, ?_, ?_, ?_, ?_, ?_, ?_, ?_⟩
  · intro h1
    simp [quoteFromMap, parseQuoteFloat_none _ h1]
  · intro h1 h2
    obtain ⟨v1, hv1⟩ := Option.ne_none_iff_exists'.mp h1
    simp [quoteFromMap, parseQuoteFloat_some _ hv1, parseQuoteFloat_none _ h2]
  · intro h1 h2 h3
    obtain ⟨v1, hv1⟩ := Option.ne_none_iff_exists'.mp h1
    obtain ⟨v2, hv2⟩ := Option.ne_none_iff_exists'.mp h2
    simp [quoteFromMap, parseQuoteFloat_some _ hv1, parseQuoteFloat_some _ hv2,
      parseQuoteFloat_none _ h3]
  · intro h1 h2 h3 h4
    obtain ⟨v1, hv1⟩ := Option.ne_none_iff_exists'.mp h1
    obtain ⟨v2, hv2⟩ := Option.ne_none_iff_exists'.mp h2
    obtain ⟨v3, hv3⟩ := Option.ne_none_iff_exists'.mp h3
    simp [quoteFromMap, parseQuoteFloat_some _ hv1, parseQuoteFloat_some _ hv2,
      parseQuoteFloat_some _ hv3, parseQuoteFloat_none _ h4]
  · intro h1 h2 h3 h4 h5
    obtain ⟨v1, hv1⟩ := Option.ne_none_iff_exists'.mp h1
    obtain ⟨v2, hv2⟩ := Option.ne_none_iff_exists'.mp h2
    obtain ⟨v3, hv3⟩ := Option.ne_none_iff_exists'.mp h3
    obtain ⟨v4, hv4⟩ := Option.ne_none_iff_exists'.mp h4
    simp [quoteFromMap, parseQuoteFloat_some _ hv1, parseQuoteFloat_some _ hv2,
      parseQuoteFloat_some _ hv3, parseQuoteFloat_some _ hv4, h5]
  · intro h1 h2 h3 h4 h5 h6
    obtain ⟨v1, hv1⟩ := Option.ne_none_iff_exists'.mp h1
    obtain ⟨v2, hv2⟩ := Option.ne_none_iff_exists'.mp h2
    obtain ⟨v3, hv3⟩ := Option.ne_none_iff_exists'.mp h3
    obtain ⟨v4, hv4⟩ := Option.ne_none_iff_exists'.mp h4
    obtain ⟨v5, hv5⟩ := Option.ne_none_iff_exists'.mp h5
    simp [quoteFromMap, parseQuoteFloat_some _ hv1, parseQuoteFloat_some _ hv2,
      parseQuoteFloat_some _ hv3, parseQuoteFloat_some _ hv4, hv5, h6]
  · intro h1 h2 h3 h4 h5 h6 h7
    obtain ⟨v1, hv1⟩ := Option.ne_none_iff_exists'.mp h1
    obtain ⟨v2, hv2⟩ := Option.ne_none_iff_exists'.mp h2
    obtain ⟨v3, hv3⟩ := Option.ne_none_iff_exists'.mp h3
    obtain ⟨v4, hv4⟩ := Option.ne_none_iff_exists'.mp h4
    obtain ⟨v5, hv5⟩ := Option.ne_none_iff_exists'.mp h5
    obtain ⟨v6, hv6⟩ := Option.ne_none_iff_exists'.mp h6
    simp [quoteFromMap, parseQuoteFloat_some _ hv1, parseQuoteFloat_some _ hv2,
      parseQuoteFloat_some _ hv3, parseQuoteFloat_some _ hv4, hv5, hv6,
      parseQuoteFloat_none _ h7]
  · intro h1 h2 h3 h4 h5 h6 h7 h8
    obtain ⟨v1, hv1⟩ := Option.ne_none_iff_exists'.mp h1
    obtain ⟨v2, hv2⟩ := Option.ne_none_iff_exists'.mp h2
    obtain ⟨v3, hv3⟩ := Option.ne_none_iff_exists'.mp h3
    obtain ⟨v4, hv4⟩ := Option.ne_none_iff_exists'.mp h4
    obtain ⟨v5, hv5⟩ := Option.ne_none_iff_exists'.mp h5
    obtain ⟨v6, hv6⟩ := Option.ne_none_iff_exists'.mp h6
    obtain ⟨v7, hv7⟩ := Option.ne_none_iff_exists'.mp h7
    simp [quoteFromMap, parseQuoteFloat_some _ hv1, parseQuoteFloat_some _ hv2,
      parseQuoteFloat_some _ hv3, parseQuoteFloat_some _ hv4, hv5, hv6,
      parseQuoteFloat_some _ hv7, parseQuoteFloat_none _ h8]
  · intro q hq
    simp only [quoteFromMap] at hq
    obtain ⟨v1, hb1, hq⟩ := Outcome.bind_eq_ok hq
    obtain ⟨v2, hb2, hq⟩ := Outcome.bind_eq_ok hq
    obtain ⟨v3, hb3, hq⟩ := Outcome.bind_eq_ok hq
    obtain ⟨v4, hb4, hq⟩ := Outcome.bind_eq_ok hq
    obtain ⟨v5, hb5, hq⟩ := Outcome.bind_eq_ok hq
    obtain ⟨v6, hb6, hq⟩ := Outcome.bind_eq_ok hq
    obtain ⟨v7, hb7, hq⟩ := Outcome.bind_eq_ok hq
    obtain ⟨v8, hb8, hq⟩ := Outcome.bind_eq_ok hq
    have := Outcome.ok.inj hq
    rw [← this]
    exact ⟨rfl, rfl⟩

/-- Claim C7, witness: a quote payload whose price field is malformed
yields exactly the error naming price. -/
theorem C7_quote_field_errors_witness :
    Quote.UnmarshalJSON {} quoteBadPricePayload = .err "error parsing price" :=
  (C7_quote_field_errors quoteBadPricePayload quoteBadPriceMap {} rfl).2.2.2.1
    (by decide) (by decide) (by decide) (by decide)

/-- Claim C8, counterexample: an indicator payload whose per-timestamp
object holds one sub-field whose value is a JSON number (not a string)
decodes successfully to a Values map with zero entries, so the decoder
does not capture exactly the sub-field set present in the payload. -/
theorem C8_counterexample :
    UnmarshalIndicatorJSON {} (Json.obj [("Technical Analysis: SMA", Json.obj [
      ("2023-09-08 10:30", Json.obj [("SMA", Json.num 5)])])]) "SMA" =
      .ok { MetaData := {},
            IndicatorValues := [{ Timestamp := encodeTS 2023 9 8 10 30 0, Values := [] }] } :=
  rfl

/-- Claim C8, amended: the indicator value map captures, without any
hardcoded schema, exactly the string-valued sub-fields of the
per-timestamp object, in order (sub-fields holding any other JSON value
are silently skipped); in particular the one-sub-field SMA payload yields
one entry per timestamp and the three-sub-field BBANDS payload yields
three. -/
theorem C8_subfield_discovery_amended :
    (∀ (o : JObj) (m : List (String × Rat)), buildValueMap o = .ok m →
      m.map Prod.fst = (o.filter (fun kv => kv.2.isStr)).map Prod.fst) ∧
    (UnmarshalIndicatorJSON {} (Json.obj [("Technical Analysis: SMA", Json.obj [
        ("2023-09-08 10:30", Json.obj [("SMA", Json.str "330.15")])])]) "SMA" =
      .ok { MetaData := {},
            IndicatorValues := [{ Timestamp := encodeTS 2023 9 8 10 30 0,
                                  Values := [("SMA", mkRat 6603 20)] }] }) ∧
    (UnmarshalIndicatorJSON {} (Json.obj [("Technical Analysis: BBANDS", Json.obj [
        ("2023-09-08 10:30", Json.obj [
          ("Real Upper Band", Json.str "340.5"),
          ("Real Middle Band", Json.str "335.25"),
          ("Real Lower Band", Json.str "330.0")])])]) "BBANDS" =
      .ok { MetaData := {},
            IndicatorValues := [{ Timestamp := encodeTS 2023 9 8 10 30 0,
                                  Values := [("Real Upper Band", mkRat 681 2),
                                             ("Real Middle Band", mkRat 1341 4),
                                             ("Real Lower Band", 330)] }] }) := by
  refine ⟨?_, rfl, rfl⟩
  intro o m h
  induction o generalizing m with
  | nil =>
    have := Outcome.ok.inj h
    rw [← this]
    rfl
  | cons kv rest ih =>
    obtain ⟨name, rv⟩ := kv
    cases rv with
    | str s =>
      rw [show buildValueMap ((name, Json.str s) :: rest) =
          (match parseFloatQ s with
           | some q => Outcome.bind (buildValueMap rest) fun m2 => .ok ((name, q) :: m2)
           | none => .err ("invalid syntax " ++ s)) from rfl] at h
      cases hp : parseFloatQ s with
      | none => rw [hp] at h; exact absurd h (by simp)
      | some q =>
        rw [hp] at h
        obtain ⟨m2, h1, h⟩ := Outcome.bind_eq_ok h
        have := Outcome.ok.inj h
        rw [← this]
        simp only [List.map_cons, List.filter_cons, Json.isStr, if_true]
        rw [ih m2 h1]
        rfl
    | null =>
      simp only [List.filter_cons, Json.isStr, Bool.false_eq_true, if_false]
      exact ih m h
    | bool b =>
      simp only [List.filter_cons, Json.isStr, Bool.false_eq_true, if_false]
      exact ih m h
    | num q =>
      simp only [List.filter_cons, Json.isStr, Bool.false_eq_true, if_false]
      exact ih m h
    | arr xs =>
      simp only [List.filter_cons, Json.isStr, Bool.false_eq_true, if_false]
      exact ih m h
    | obj o2 =>
      simp only [List.filter_cons, Json.isStr, Bool.false_eq_true, if_false]
      exact ih m h

/-- Claim C8, witness: the general part applied to an object holding one
string-valued and one number-valued sub-field. -/
theorem C8_subfield_discovery_amended_witness :
    ([("SMA", mkRat 3 2)] : List (String × Rat)).map Prod.fst =
      (([("SMA", Json.str "1.5"), ("skipme", Json.num 2)] : JObj).filter
        (fun kv => kv.2.isStr)).map Prod.fst :=
  C8_subfield_discovery_amended.1 [("SMA", Json.str "1.5"), ("skipme", Json.num 2)]
    [("SMA", mkRat 3 2)] rfl

/-- Claim C9: the concrete daily payload of scenario A decodes to a
TimeSeriesDaily whose series has exactly one entry with timestamp
2023-09-08 00:00:00, Open 330 and Volume 1000000. -/
theorem C9_concrete_daily_scenario :
    TimeSeriesDaily.UnmarshalJSON {} payloadA = .ok
      { MetaData := { Information := "Daily Prices", Symbol := "MSFT",
                      LastRefreshed := "2023-09-08", Interval := "Daily",
                      OutputSize := "Compact", TimeZone := "US/Eastern" },
        TimeSeries := [{ Timestamp := encodeTS 2023 9 8 0 0 0, Open := 330, High := 335,
                         Low := 329, Close := 334, Volume := 1000000 }] } := rfl

/-- Claim C10: when the intraday payload carries a Meta Data object that
is missing one of the six expected keys (or holds a non-string value
there), the decode ends in a runtime panic from the unchecked type
assertions instead of returning an error. -/
theorem C10_intraday_meta_assertions_panic :
    ∀ (top m : JObj) (recv : TimeSeriesIntraday),
      jlookup top "Meta Data" = some (Json.obj m) →
      (∃ k ∈ intradayMetaKeys, ∀ s, jlookup m k ≠ some (Json.str s)) →
      TimeSeriesIntraday.UnmarshalJSON recv (Json.obj top) =
        .panic "interface conversion" := by
  intro top m recv h1 h2
  simp only [TimeSeriesIntraday.UnmarshalJSON, intradayMeta, h1,
    intradayMetaFields_panic recv.MetaData h2, Outcome.bind_panic]

/-- Claim C10, witness: a Meta Data block holding only the first key
makes the intraday decode panic. -/
theorem C10_intraday_meta_assertions_panic_witness :
    TimeSeriesIntraday.UnmarshalJSON {}
      (Json.obj [("Meta Data", Json.obj [("1. Information", Json.str "x")])]) =
      .panic "interface conversion" :=
  C10_intraday_meta_assertions_panic _ _ {} rfl
    ⟨"2. Symbol", by decide, fun s h => Option.noConfusion h⟩
